import Mathlib

/-!
Shallow embedding of the pycel2sql CEL-to-SQL converter core
(`src/pycel2sql/_converter.py`, `_utils.py`, `_errors.py`, `_constants.py`,
`schema.py`, `_analysis.py`, `_analysis_types.py`, `dialect/*.py`,
`__init__.py`), together with theorems settling the frozen claims about it.

The parse tree of the external CEL parser (a lark tree of `Tree` nodes with
string rule names and `Token` leaves with a type tag and text) is mirrored
by the generic `PTree` type.  The converter's mutable session state
(output buffer, depth counters, parameter list, bound comprehension-variable
set) becomes an explicit state record threaded by a state-plus-error monad
`M` in which the state survives an error, exactly as Python object
attributes survive a raised exception; `try/finally` blocks become
`tryFin`.  Machine strings are Lean strings manipulated over their
character lists; dialect rendering callbacks become templates (`Tpl`)
interleaving text with numbered sub-expression holes, run in callback
order.  Python-level failures that are not `ConversionError`s (a call to a
method with the wrong arity, a missing method, an out-of-range list index)
are modelled as dedicated error kinds.  Converter branches that no claim
touches (byte literals, `has()`, type casts, timestamp builtins,
`indexOf`/`substring`/`replace`/`split`/`join`/`format`) are marked with the
`unmodeled` error kind and are never relied on by any theorem.
-/

namespace Pycel

/-- Generic mirror of the lark parse tree: interior nodes carry the rule
name (`Tree.data`) and children; leaves are tokens with a type tag and
text. -/
inductive PTree where
  | nd (data : String) (children : List PTree)
  | tk (ttype : String) (text : String)

mutual

/-- Size of a tree, used only to pick a sufficient fuel for the fueled
visitor (each visit step descends into strict subtrees). -/
def tsize : PTree → Nat
  | .tk _ _ => 1
  | .nd _ cs => 1 + tsizeL cs

/-- Sum of sizes of a list of trees. -/
def tsizeL : List PTree → Nat
  | [] => 0
  | c :: rest => tsize c + tsizeL rest

end

/-- Text of a token leaf (Python `str(token)`); for an interior node the
converter never takes this path on real parse trees, the rule name stands
in. -/
def textOf : PTree → String
  | .tk _ t => t
  | .nd d _ => d

/-- Error kinds: the flat ConversionError taxonomy of `_errors.py`, plus
kinds for Python-level failures the embedding makes explicit and a marker
for converter branches left unmodeled. -/
inductive ErrKind where
  | unsupported_expression
  | unsupported_operation
  | invalid_field_name
  | invalid_schema
  | invalid_regex_pattern
  | max_depth_exceeded
  | max_output_length_exceeded
  | invalid_comprehension
  | max_comprehension_depth_exceeded
  | invalid_arguments
  | unsupported_type
  | invalid_timestamp_operation
  | invalid_duration
  | invalid_json_path
  | invalid_operator
  | invalid_byte_array_length
  | unsupported_dialect_feature
  | introspection_failure
  | python_type_error
  | python_attribute_error
  | python_index_error
  | unmodeled
  | out_of_fuel
deriving DecidableEq

/-- A conversion error: kind tag, sanitized user-facing message and
internal details (`ConversionError.__init__`: empty details default to the
user message). -/
structure Err where
  kind : ErrKind
  user : String
  internal : String
deriving DecidableEq

/-- Build an error the way `ConversionError.__init__` does: the internal
details default to the user message when not supplied. -/
def mkErr (k : ErrKind) (user : String) (internal : String := "") : Err :=
  { kind := k, user := user, internal := if internal = "" then user else internal }

/-- Native values carried by the parameter list in parameterized mode:
Python int (covers INT and UINT literals), float (identified by its source
text, as the converter builds it from `str(token)`), and str. -/
inductive Value where
  | vInt (i : Int)
  | vFloat (text : String)
  | vStr (s : String)
deriving DecidableEq

/-- Converter session state (`Converter.__init__`): output buffer, recursion
depth, comprehension depth, ordered parameter list with its count, and the
set of currently-bound comprehension loop-variable names (a Python set,
modelled as a duplicate-free list). -/
structure ConvState where
  buf : String
  depth : Nat
  compDepth : Nat
  params : List Value
  paramCount : Nat
  compVars : List String
deriving DecidableEq

/-- Initial session state of a fresh `Converter`. -/
def initState : ConvState :=
  { buf := "", depth := 0, compDepth := 0, params := [], paramCount := 0, compVars := [] }

/-- State-and-error monad of the converter: the state is returned even when
an error is raised, exactly as Python object attributes persist across a
raised exception. -/
def M (α : Type) : Type := ConvState → Except Err α × ConvState

/-- Monadic return. -/
def mpure {α : Type} (a : α) : M α := fun s => (Except.ok a, s)

/-- Monadic bind: an error short-circuits but keeps the state at the point
of the raise. -/
def mbind {α β : Type} (m : M α) (k : α → M β) : M β := fun s =>
  match m s with
  | (Except.ok a, s') => k a s'
  | (Except.error e, s') => (Except.error e, s')

instance : Monad M where
  pure := mpure
  bind := mbind

/-- Raise a conversion error (state kept). -/
def raise {α : Type} (e : Err) : M α := fun s => (Except.error e, s)

/-- Append text to the output buffer (`self._w.write`). -/
def wr (t : String) : M Unit := fun s => (Except.ok (), { s with buf := s.buf ++ t })

/-- Read the current state. -/
def getS : M ConvState := fun s => (Except.ok s, s)

/-- Apply a pure update to the state. -/
def modifyS (f : ConvState → ConvState) : M Unit := fun s => (Except.ok (), f s)

/-- Python `try: body finally: fin` where the finalizer is a pure state
update that cannot itself raise: it runs on the body's resulting state
whether or not the body raised, and the body's outcome is kept. -/
def tryFin {α : Type} (body : M α) (fin : ConvState → ConvState) : M α := fun s =>
  match body s with
  | (r, s') => (r, fin s')

/-- Lift an `Except` computation (a pure helper that may raise) into `M`. -/
def liftE {α : Type} (e : Except Err α) : M α :=
  match e with
  | Except.ok a => mpure a
  | Except.error err => raise err

/-- Run each action of a list in order. -/
def mseq : List (M Unit) → M Unit
  | [] => mpure ()
  | m :: rest => mbind m (fun _ => mseq rest)

/-- Run actions in order, writing `", "` between consecutive ones (the
`for i, arg in enumerate(...)` separator loop). -/
def msepSeq : List (M Unit) → M Unit
  | [] => mpure ()
  | m :: rest => mbind m (fun _ => mseq (rest.map (fun a => mbind (wr ", ") (fun _ => a))))

/-- Simp lemmas exposing the monad operations as `mbind`/`mpure`. -/
@[simp] theorem bind_eq_mbind {α β : Type} (m : M α) (k : α → M β) :
    m >>= k = mbind m k := rfl

@[simp] theorem pure_eq_mpure {α : Type} (a : α) : (pure a : M α) = mpure a := rfl

@[simp] theorem mbind_run_def {α β : Type} (m : M α) (k : α → M β) (s : ConvState) :
    mbind m k s = match m s with
      | (Except.ok a, s') => k a s'
      | (Except.error e, s') => (Except.error e, s') := rfl

@[simp] theorem raise_run {α : Type} (e : Err) (s : ConvState) :
    (raise e : M α) s = (Except.error e, s) := rfl

@[simp] theorem getS_run (s : ConvState) : getS s = (Except.ok s, s) := rfl

@[simp] theorem modifyS_run (f : ConvState → ConvState) (s : ConvState) :
    modifyS f s = (Except.ok (), f s) := rfl

@[simp] theorem tryFin_run {α : Type} (body : M α) (fin : ConvState → ConvState)
    (s : ConvState) : tryFin body fin s = ((body s).1, fin (body s).2) := by
  unfold tryFin; rcases body s with ⟨r, s'⟩; rfl

end Pycel

namespace Pycel

/-! ## Character-list string helpers

All string manipulation is done over `List Char` so that concrete runs
reduce cleanly; `String` wrappers pack the results. -/

/-- Whether a character list starts with the given prefix. -/
def startsWithL : List Char → List Char → Bool
  | _, [] => true
  | [], _ :: _ => false
  | c :: cs, p :: ps => c = p && startsWithL cs ps

/-- Whether the string starts with the given prefix (over char lists). -/
def swith (s p : String) : Bool := startsWithL s.data p.data

/-- Whether some suffix of the character list satisfies the predicate
(Python `re.search` existence over all start positions). -/
def anySuffix (p : List Char → Bool) : List Char → Bool
  | [] => p []
  | c :: cs => p (c :: cs) || anySuffix p cs

/-- Whether the character list contains the given substring. -/
def containsSubL (hay needle : List Char) : Bool :=
  anySuffix (fun suf => startsWithL suf needle) hay

/-- Whether the string contains the given substring. -/
def containsSub (hay needle : String) : Bool := containsSubL hay.data needle.data

/-- Fueled scan for `countSubL`: the fuel (the scanned list's length at
the top call) strictly bounds the number of steps, so the zero-fuel branch
is unreachable. -/
def countSubGo (nc : Char) (ncs : List Char) : Nat → List Char → Nat
  | 0, _ => 0
  | _ + 1, [] => 0
  | fuel + 1, c :: cs =>
    if startsWithL (c :: cs) (nc :: ncs) then
      1 + countSubGo nc ncs fuel (cs.drop ncs.length)
    else
      countSubGo nc ncs fuel cs

/-- Count of non-overlapping occurrences of a non-empty substring, as
Python `str.count` does, scanning left to right (all callers pass a
non-empty needle). -/
def countSubL (l : List Char) (nc : Char) (ncs : List Char) : Nat :=
  countSubGo nc ncs l.length l

/-- Fueled scan for `replaceL` (fuel as in `countSubGo`). -/
def replaceGo (nc : Char) (ncs : List Char) (repl : List Char) :
    Nat → List Char → List Char
  | 0, l => l
  | _ + 1, [] => []
  | fuel + 1, c :: cs =>
    if startsWithL (c :: cs) (nc :: ncs) then
      repl ++ replaceGo nc ncs repl fuel (cs.drop ncs.length)
    else
      c :: replaceGo nc ncs repl fuel cs

/-- Replace every occurrence of the non-empty `nc :: ncs` (non-overlapping,
left to right) by `repl`, as Python `str.replace` does. -/
def replaceL (l : List Char) (nc : Char) (ncs : List Char) (repl : List Char) : List Char :=
  replaceGo nc ncs repl l.length l

/-- Python `str.replace` over strings; an empty needle (which no caller
passes) leaves the string unchanged. -/
def replS (s needle repl : String) : String :=
  match needle.data with
  | [] => s
  | nc :: ncs => ⟨replaceL s.data nc ncs repl.data⟩

/-- Python `str.count` over strings (non-empty needle at every caller). -/
def countSub (s needle : String) : Nat :=
  match needle.data with
  | [] => 0
  | nc :: ncs => countSubL s.data nc ncs

/-- Lower-case a character list (ASCII, as Python `.lower()` behaves on the
inputs that occur here). -/
def lowerL (l : List Char) : List Char := l.map Char.toLower

/-- Lower-case a string. -/
def lowerS (s : String) : String := ⟨lowerL s.data⟩

/-- Upper-case a string (ASCII). -/
def upperS (s : String) : String := ⟨s.data.map Char.toUpper⟩

/-- Whether a string contains a NUL character. -/
def containsNull (s : String) : Bool := s.data.any (fun c => c = '\x00')

/-- Digit test for ASCII decimal digits. -/
def isDigitC (c : Char) : Bool := '0' ≤ c && c ≤ '9'

/-- Value of one hexadecimal digit, if it is one. -/
def hexDigit? (c : Char) : Option Nat :=
  if '0' ≤ c ∧ c ≤ '9' then some (c.toNat - '0'.toNat)
  else if 'a' ≤ c ∧ c ≤ 'f' then some (c.toNat - 'a'.toNat + 10)
  else if 'A' ≤ c ∧ c ≤ 'F' then some (c.toNat - 'A'.toNat + 10)
  else none

/-- Accumulating hex-digit parse; any non-hex character yields `none`. -/
def hexGo (acc : Nat) : List Char → Option Nat
  | [] => some acc
  | c :: cs => match hexDigit? c with
    | some v => hexGo (acc * 16 + v) cs
    | none => none

/-- Parse a non-empty list of hex digits, like Python `int(s, 16)` on the
short escape payloads (empty input is a `ValueError` there). -/
def hexVal? : List Char → Option Nat
  | [] => none
  | l => hexGo 0 l

/-- Accumulating decimal parse; any non-digit yields `none`. -/
def decGo (acc : Nat) : List Char → Option Nat
  | [] => some acc
  | c :: cs => if isDigitC c then decGo (acc * 10 + (c.toNat - '0'.toNat)) cs else none

/-- Parse a non-empty decimal digit run to a Nat. -/
def decVal? : List Char → Option Nat
  | [] => none
  | l => decGo 0 l

/-- Python `int(text, 0)` on the integer tokens that occur in CEL: an
optional sign, then either a `0x`/`0X` hexadecimal run or a decimal run.
Malformed text (which the lexer never produces) parses as 0. -/
def parseIntPy (s : String) : Int :=
  let l := s.data
  let (neg, body) := match l with
    | '-' :: rest => (true, rest)
    | '+' :: rest => (false, rest)
    | other => (false, other)
  let mag : Nat :=
    match body with
    | '0' :: 'x' :: hex => (hexVal? hex).getD 0
    | '0' :: 'X' :: hex => (hexVal? hex).getD 0
    | dec => (decVal? dec).getD 0
  if neg then -(mag : Int) else (mag : Int)

/-- Strip trailing `u`/`U` characters (Python `str.rstrip("uU")`). -/
def rstripU (s : String) : String := ⟨(s.data.reverse.dropWhile (fun c => c = 'u' ∨ c = 'U')).reverse⟩

end Pycel

namespace Pycel

/-! ## Validation and escaping utilities (`_utils.py`) -/

/-- Reserved SQL keywords rejected as field names
(`RESERVED_SQL_KEYWORDS`). -/
def reservedSqlKeywords : List String :=
  ["all", "alter", "and", "any", "array", "as", "asc", "between",
   "by", "case", "cast", "check", "column", "constraint", "create",
   "cross", "current", "current_date", "current_time", "current_timestamp",
   "current_user", "default", "delete", "desc", "distinct", "drop",
   "else", "end", "except", "exists", "false", "for", "foreign",
   "from", "full", "grant", "group", "having", "in", "index", "inner",
   "insert", "intersect", "into", "is", "join", "left", "like", "limit",
   "not", "null", "offset", "on", "or", "order", "outer", "primary",
   "references", "right", "select", "session_user", "set", "some",
   "table", "then", "to", "true", "union", "unique", "update", "user",
   "using", "values", "when", "where", "with"]

/-- Identifier-start character (`[a-zA-Z_]`). -/
def isIdentStart (c : Char) : Bool :=
  ('a' ≤ c && c ≤ 'z') || ('A' ≤ c && c ≤ 'Z') || c = '_'

/-- Identifier-continuation character (`[a-zA-Z0-9_]`). -/
def isIdentCont (c : Char) : Bool := isIdentStart c || isDigitC c

/-- Whether a name matches `FIELD_NAME_RE` (`^[a-zA-Z_][a-zA-Z0-9_]*$`). -/
def fieldNameRe (s : String) : Bool :=
  match s.data with
  | [] => false
  | c :: cs => isIdentStart c && cs.all isIdentCont

/-- Maximum identifier length (`MAX_POSTGRESQL_IDENTIFIER_LENGTH`). -/
def maxPostgresIdentLength : Nat := 63

/-- Validation of a SQL field name (`validate_field_name`): the error it
raises, or `none` when the name passes. -/
def validate_field_name (name : String) : Option Err :=
  if name = "" then
    some (mkErr .invalid_field_name "field name cannot be empty" "empty field name provided")
  else if name.data.length > maxPostgresIdentLength then
    some (mkErr .invalid_field_name "field name too long"
      ("field name '" ++ name ++ "' exceeds 63 characters"))
  else if ¬ fieldNameRe name then
    some (mkErr .invalid_field_name "invalid field name format"
      ("field name '" ++ name ++ "' contains invalid characters"))
  else if lowerS name ∈ reservedSqlKeywords then
    some (mkErr .invalid_field_name "field name is a reserved SQL keyword"
      ("field name '" ++ name ++ "' is a reserved SQL keyword"))
  else
    none

/-- LIKE-pattern escaping (`escape_like_pattern`): backslash, percent and
underscore get a backslash, single quotes are doubled, in this order. -/
def escape_like_pattern (p : String) : String :=
  replS (replS (replS (replS p "\\" "\\\\") "%" "\\%") "_" "\\_") "'" "''"

/-- Single-quote doubling (`escape_string_literal` and the dialects'
string-literal escaping). -/
def escape_string_literal (v : String) : String := replS v "'" "''"

/-- Null-byte rejection (`validate_no_null_bytes`): note the raised error is
an `InvalidFieldNameError` whatever the context. -/
def validate_no_null_bytes (v : String) (context : String := "string literals") : Option Err :=
  if containsNull v then
    some (mkErr .invalid_field_name (context ++ " cannot contain null bytes")
      ("null byte found in " ++ context))
  else
    none

/-! ## Regex translation (`convert_re2_to_posix` and its guards) -/

/-- Regex limits (`MAX_REGEX_LENGTH`, `MAX_REGEX_GROUPS`,
`MAX_REGEX_NESTING`). -/
def maxRegexLength : Nat := 500

/-- Group-count limit. -/
def maxRegexGroups : Nat := 20

/-- Nesting-depth limit. -/
def maxRegexNesting : Nat := 10

/-- Quantifier characters. -/
def isQuantC (c : Char) : Bool := c = '+' || c = '*' || c = '?'

/-- Match of `_REDOS_NESTED_QUANTIFIER` = `\([^)]*[+*?]\)[+*?]` at the head
of the list: a `(`, then a non-empty run of non-`)` characters whose last
character is a quantifier, then `)`, then a quantifier.  Because `[^)]*` can
never cross a `)`, matching at a position is equivalent to inspecting the
run up to the first `)`. -/
def redosAtHead (l : List Char) : Bool :=
  match l with
  | '(' :: rest =>
    let run := rest.takeWhile (fun c => ¬ c = ')')
    let after := rest.dropWhile (fun c => ¬ c = ')')
    (match run.getLast? with
     | some q => isQuantC q
     | none => false) &&
    (match after with
     | ')' :: c :: _ => isQuantC c
     | _ => false)
  | _ => false

/-- Existence of a `_REDOS_NESTED_QUANTIFIER` match anywhere in the
pattern (`re.search`). -/
def hasRedosNestedQuantifier (s : String) : Bool := anySuffix redosAtHead s.data

/-- Match of `\(\?[!=<]` at the head (lookahead/lookbehind opener). -/
def lookaroundAtHead : List Char → Bool
  | '(' :: '?' :: c :: _ => c = '!' || c = '=' || c = '<'
  | _ => false

/-- Match of `\(\?[imsx]` at the head (inline flag opener). -/
def inlineFlagAtHead : List Char → Bool
  | '(' :: '?' :: c :: _ => c = 'i' || c = 'm' || c = 's' || c = 'x'
  | _ => false

/-- Maximum parenthesis nesting depth of the pattern, computed exactly as
the source's running `depth`/`max_depth` loop (the running depth is an
integer that may go negative). -/
def regexMaxNesting (s : String) : Nat :=
  go 0 0 s.data
where
  go (depth : Int) (maxDepth : Nat) : List Char → Nat
    | [] => maxDepth
    | c :: cs =>
      if c = '(' then
        go (depth + 1) (max maxDepth (depth + 1).toNat) cs
      else if c = ')' then
        go (depth - 1) maxDepth cs
      else
        go depth maxDepth cs

/-- Security guard sequence of `convert_re2_to_posix` (lines 103-165 of
`_utils.py`), shared verbatim by the per-family converters: length bound,
null-byte rejection, leading `(?i)` extraction, rejection of lookaround,
named captures and inline flags, the nested-quantifier ReDoS check, the
nesting-depth bound and the group-count bound.  Returns the pattern with a
leading `(?i)` stripped, and the case-insensitivity flag. -/
def re2GuardChecks (re2_pattern : String) : Except Err (String × Bool) := do
  if re2_pattern.data.length > maxRegexLength then
    throw (mkErr .invalid_regex_pattern "regex pattern too long"
      ("pattern length exceeds limit"))
  match validate_no_null_bytes re2_pattern "regex patterns" with
  | some e => throw e
  | none => pure ()
  let ci := swith re2_pattern "(?i)"
  let pattern : String := if ci then ⟨re2_pattern.data.drop 4⟩ else re2_pattern
  if anySuffix lookaroundAtHead pattern.data then
    throw (mkErr .invalid_regex_pattern "lookahead/lookbehind not supported"
      ("pattern contains lookahead/lookbehind: " ++ re2_pattern))
  if containsSub pattern "(?P<" then
    throw (mkErr .invalid_regex_pattern "named captures not supported"
      ("pattern contains named captures: " ++ re2_pattern))
  if anySuffix inlineFlagAtHead pattern.data then
    throw (mkErr .invalid_regex_pattern "inline flags not supported"
      ("pattern contains inline flags: " ++ re2_pattern))
  if hasRedosNestedQuantifier pattern then
    throw (mkErr .invalid_regex_pattern "potential ReDoS: nested quantifiers detected"
      ("pattern has nested quantifiers: " ++ re2_pattern))
  if regexMaxNesting pattern > maxRegexNesting then
    throw (mkErr .invalid_regex_pattern "regex nesting too deep"
      ("pattern nesting depth exceeds limit"))
  if countSub pattern "(" - countSub pattern "(?:" > maxRegexGroups then
    throw (mkErr .invalid_regex_pattern "too many regex groups"
      ("pattern has too many groups"))
  pure (pattern, ci)

/-- Shorthand-class rewriting tail of `convert_re2_to_posix`: RE2 classes
to POSIX classes, word boundaries to `\y`/`\Y`, non-capturing groups to
plain groups. -/
def posixRewrite (p : String) : String :=
  replS (replS (replS (replS (replS (replS (replS (replS (replS
    p "\\d" "[[:digit:]]") "\\D" "[^[:digit:]]") "\\w" "[[:alnum:]_]")
    "\\W" "[^[:alnum:]_]") "\\s" "[[:space:]]") "\\S" "[^[:space:]]")
    "\\b" "\\y") "\\B" "\\Y") "(?:" "("

/-- RE2-to-POSIX conversion (`convert_re2_to_posix`): the guard sequence
followed by the POSIX rewriting. -/
def convert_re2_to_posix (re2_pattern : String) : Except Err (String × Bool) := do
  let (p, ci) ← re2GuardChecks re2_pattern
  pure (posixRewrite p, ci)

/-- Modelled from the spec: `convert_re2_to_re2_native` is imported from
`_utils` by the DuckDB and BigQuery dialects but its definition is not
among the source files.  Per §2/§9 the per-family regex converters share
the attack-pattern rejection ("preserve the explicit reject list
(lookaround, named groups, inline flags beyond a single leading
case-insensitive marker, excessive length/groups/nesting) verbatim") and
§8 requires `"(a+)+"` to be rejected on every regex-supporting dialect; the
target syntax being native RE2, the pattern itself passes through. -/
def convert_re2_to_re2_native (re2_pattern : String) : Except Err (String × Bool) :=
  re2GuardChecks re2_pattern

/-- Modelled from the spec: `convert_re2_to_mysql` is imported from
`_utils` by the MySQL dialect but its definition is not among the source
files.  Same shared reject list (§9); per the §9 open question the
case-insensitive marker is re-embedded into the pattern text for this
backend. -/
def convert_re2_to_mysql (re2_pattern : String) : Except Err (String × Bool) := do
  let (p, ci) ← re2GuardChecks re2_pattern
  pure ((if ci then "(?i)" ++ p else p), ci)

end Pycel

namespace Pycel

/-! ## Converter-module pure helpers (`_converter.py` top level) -/

/-- Strip surrounding quotes from a CEL string-literal token
(`_strip_quotes`): an optional raw prefix letter, then triple or single
quotes. -/
def stripQuotes (s : String) : String :=
  let l := s.data
  let l := if startsWithL l ['r', '"'] || startsWithL l ['r', '\''] ||
              startsWithL l ['R', '"'] || startsWithL l ['R', '\''] then l.drop 1 else l
  if startsWithL l ['"', '"', '"'] || startsWithL l ['\'', '\'', '\''] then
    ⟨(l.drop 3).dropLast.dropLast.dropLast⟩
  else if startsWithL l ['"'] || startsWithL l ['\''] then
    ⟨(l.drop 1).dropLast⟩
  else
    ⟨l⟩

/-- Whether the token text carries a raw-string prefix, as the literal
handler checks with `str(token).startswith(("r'", 'r"', "R'", 'R"'))`. -/
def rawPrefixed (s : String) : Bool :=
  startsWithL s.data ['r', '\''] || startsWithL s.data ['r', '"'] ||
  startsWithL s.data ['R', '\''] || startsWithL s.data ['R', '"']

/-- CEL escape-sequence processing (`Converter._process_escapes`).
`chr` of a surrogate code point, which Lean's `Char` cannot hold, never
occurs in the inputs of any theorem below. -/
def processEscapesGo : Nat → List Char → List Char
  | 0, l => l
  | _ + 1, [] => []
  | _ + 1, ['\\'] => ['\\']
  | fuel + 1, '\\' :: nxt :: rest =>
    if nxt = 'n' then '\n' :: processEscapesGo fuel rest
    else if nxt = 't' then '\t' :: processEscapesGo fuel rest
    else if nxt = 'r' then '\r' :: processEscapesGo fuel rest
    else if nxt = '\\' then '\\' :: processEscapesGo fuel rest
    else if nxt = '\'' then '\'' :: processEscapesGo fuel rest
    else if nxt = '"' then '"' :: processEscapesGo fuel rest
    else if nxt = '0' then '\x00' :: processEscapesGo fuel rest
    else if nxt = 'x' then
      match rest with
      | h1 :: h2 :: rest2 =>
        (match hexVal? [h1, h2] with
         | some v => Char.ofNat v :: processEscapesGo fuel rest2
         | none => '\\' :: processEscapesGo fuel (nxt :: h1 :: h2 :: rest2))
      | short => '\\' :: nxt :: processEscapesGo fuel short
    else if nxt = 'u' then
      match rest with
      | h1 :: h2 :: h3 :: h4 :: rest2 =>
        (match hexVal? [h1, h2, h3, h4] with
         | some v => Char.ofNat v :: processEscapesGo fuel rest2
         | none => '\\' :: processEscapesGo fuel (nxt :: h1 :: h2 :: h3 :: h4 :: rest2))
      | short => '\\' :: nxt :: processEscapesGo fuel short
    else
      '\\' :: nxt :: processEscapesGo fuel rest
  | fuel + 1, c :: rest => c :: processEscapesGo fuel rest

/-- String wrapper for escape processing; the fuel (the input length)
strictly bounds the number of steps, each of which consumes at least one
character. -/
def processEscapes (s : String) : String := ⟨processEscapesGo s.data.length s.data⟩

/-- Token-type predicates (`_is_string_token` and friends). -/
def isStrTokT (ty : String) : Bool := ty = "STRING_LIT" || ty = "MLSTRING_LIT"

/-- INT_LIT test. -/
def isIntTokT (ty : String) : Bool := ty = "INT_LIT"

/-- UINT_LIT test. -/
def isUintTokT (ty : String) : Bool := ty = "UINT_LIT"

/-- FLOAT_LIT test. -/
def isFloatTokT (ty : String) : Bool := ty = "FLOAT_LIT"

/-- BOOL_LIT test. -/
def isBoolTokT (ty : String) : Bool := ty = "BOOL_LIT"

/-- NULL_LIT test. -/
def isNullTokT (ty : String) : Bool := ty = "NULL_LIT"

/-- BYTES_LIT test. -/
def isBytesTokT (ty : String) : Bool := ty = "BYTES_LIT"

/-- Literal-token extraction (`_get_literal_token`): walk single-child
wrapper nodes down to a `literal` node and return its leading token's type
and text; multi-child nodes, empty literals or non-token children yield
`none`. -/
def getLiteralToken : PTree → Option (String × String)
  | .tk _ _ => none
  | .nd d cs =>
    if d = "literal" then
      match cs with
      | .tk ty tx :: _ => some (ty, tx)
      | _ => none
    else
      match cs with
      | [c] => getLiteralToken c
      | _ => none

mutual

/-- String-literal presence test (`_tree_contains_string_literal`): a
`literal` node is inspected directly; otherwise only tree children (not
tokens) are searched. -/
def treeContainsStringLiteral : PTree → Bool
  | .tk ty _ => isStrTokT ty
  | .nd d cs =>
    if d = "literal" then
      match cs with
      | .tk ty _ :: _ => isStrTokT ty
      | _ => false
    else
      anyTreeChildStr cs

/-- Search only the `Tree` children (tokens are skipped by the source's
`isinstance(child, Tree)` filter). -/
def anyTreeChildStr : List PTree → Bool
  | [] => false
  | .tk _ _ :: rest => anyTreeChildStr rest
  | .nd d cs :: rest => treeContainsStringLiteral (.nd d cs) || anyTreeChildStr rest

end

/-- List-literal test (`_tree_is_list_literal`): unwrap single-child nodes
down to a `list_lit`. -/
def treeIsListLiteral : PTree → Bool
  | .tk _ _ => false
  | .nd d cs =>
    if d = "list_lit" then true
    else match cs with
      | [c] => treeIsListLiteral c
      | _ => false

/-- Unwrap single-child nodes to one with the given rule name
(`_unwrap_to_data`). -/
def unwrapToData (target : String) : PTree → Option PTree
  | .tk _ _ => none
  | .nd d cs =>
    if d = target then some (.nd d cs)
    else match cs with
      | [c] => unwrapToData target c
      | _ => none

/-- Root identifier of a tree (`_get_root_ident`): `ident` nodes give their
token's text, `member_dot` descends into the object, any other node
descends into its first child; a bare IDENT token gives its text. -/
def getRootIdent : PTree → Option String
  | .tk ty tx => if ty = "IDENT" then some tx else none
  | .nd d cs =>
    if d = "ident" then
      match cs with
      | c :: _ => some (textOf c)
      | [] => none
    else if d = "member_dot" then
      match cs with
      | c :: _ => getRootIdent c
      | [] => none
    else
      match cs with
      | c :: _ => getRootIdent c
      | [] => none

/-- Unwrap `member`/`primary` single-child wrappers (the inner-child loop
of `_get_first_field`). -/
def unwrapMemPrim : PTree → PTree
  | .nd "member" [c] => unwrapMemPrim c
  | .nd "primary" [c] => unwrapMemPrim c
  | t => t

/-- First field of a `member_dot` chain (`_get_first_field`): walk the
chain toward the root; when the object below a `member_dot` unwraps to an
`ident`, that `member_dot`'s field name is the first field; otherwise the
fallback. -/
def getFirstField (obj : PTree) (fallback : String) : String :=
  match obj with
  | .nd "member_dot" (child :: nameTok :: _) =>
    (match unwrapMemPrim child with
     | .nd "ident" [_] => textOf nameTok
     | .nd "ident" (_ :: _ :: _) => textOf nameTok
     | _ => getFirstField child fallback)
  | .nd _ [c] => getFirstField c fallback
  | _ => fallback

/-- Identifier-name extraction for comprehension loop variables
(`_get_ident_name`): walk single-child nodes to an `ident` node or an
IDENT token; anything else raises an arguments error. -/
def getIdentName : PTree → Except Err String
  | .tk ty tx =>
    if ty = "IDENT" then pure tx
    else throw (mkErr .invalid_arguments "expected identifier"
      "cannot extract identifier from node")
  | .nd d cs =>
    if d = "ident" then
      match cs with
      | c :: _ => pure (textOf c)
      | [] => throw (mkErr .python_index_error "IndexError" "ident node with no children")
    else
      match cs with
      | [c] => getIdentName c
      | _ => throw (mkErr .invalid_arguments "expected identifier"
          ("cannot extract identifier from " ++ d))

/-- Numeric-literal test (`_is_numeric_literal`). -/
def isNumericLiteral (t : PTree) : Bool :=
  match getLiteralToken t with
  | some (ty, _) => isIntTokT ty || isFloatTokT ty || isUintTokT ty
  | none => false

mutual

/-- Duration-expression test (`_is_duration_expression`): an `ident_arg`
whose function name is `duration` or `interval`, searched through all
children except `exprlist` subtrees. -/
def isDurationExpression : PTree → Bool
  | .tk _ _ => false
  | .nd d cs =>
    if d = "ident_arg" then
      match cs with
      | c :: _ => textOf c = "duration" || textOf c = "interval"
      | [] => false
    else
      anyDurChild cs

/-- Child scan for `isDurationExpression` skipping `exprlist` nodes. -/
def anyDurChild : List PTree → Bool
  | [] => false
  | .nd "exprlist" _ :: rest => anyDurChild rest
  | .tk _ _ :: rest => anyDurChild rest
  | .nd d cs :: rest => isDurationExpression (.nd d cs) || anyDurChild rest

end

mutual

/-- Temporal-expression test (`_tree_has_temporal`): temporal constructor
calls or recognized timestamp field names, searched through all
children. -/
def treeHasTemporal : PTree → Bool
  | .tk _ _ => false
  | .nd d cs =>
    if d = "ident_arg" then
      match cs with
      | c :: _ => textOf c ∈ ["duration", "interval", "timestamp", "date", "time",
          "datetime", "current_date", "current_datetime"]
      | [] => false
    else if d = "ident" then
      match cs with
      | c :: _ => textOf c ∈ ["created_at", "updated_at", "birthday", "fixed_time",
          "scheduled_at"]
      | [] => false
    else
      anyTemporalChild cs

/-- Child scan for `treeHasTemporal`. -/
def anyTemporalChild : List PTree → Bool
  | [] => false
  | .tk _ _ :: rest => anyTemporalChild rest
  | .nd d cs :: rest => treeHasTemporal (.nd d cs) || anyTemporalChild rest

end

end Pycel

namespace Pycel

/-! ## Schema model (`schema.py`) -/

/-- Schema of one field/column (`FieldSchema`); `declared_type`,
`dimensions` and `element_type` play no role in the converter paths the
claims touch and are omitted. -/
structure FieldSchema where
  name : String
  repeated : Bool := false
  is_json : Bool := false
  is_jsonb : Bool := false
deriving DecidableEq

/-- Table schema (`Schema`): an ordered field list; `find_field` consults
the name index, in which a later duplicate overwrites an earlier one, hence
the reversed search. -/
structure Schema where
  fields : List FieldSchema
deriving DecidableEq

/-- Field lookup (`Schema.find_field`). -/
def Schema.find_field (s : Schema) (n : String) : Option FieldSchema :=
  s.fields.reverse.find? (fun f => f.name = n)

/-- The schemas mapping (`dict[str, Schema]`), as an association list. -/
def Schemas : Type := List (String × Schema)

/-- Dictionary lookup (`self._schemas.get(table_name)`). -/
def schemasGet (ss : Schemas) (n : String) : Option Schema :=
  match ss.find? (fun p => p.1 = n) with
  | some p => some p.2
  | none => none

/-! ## Index-analysis domain types (`_analysis_types.py`) -/

/-- Pattern kinds (`PatternType`). -/
inductive PatternType where
  | comparison
  | json_access
  | regex_match
  | array_membership
  | array_comprehension
  | json_array_comprehension
deriving DecidableEq

/-- Index kinds (`IndexType`). -/
inductive IndexType where
  | btree
  | gin
  | gist
  | art
  | clustering
  | search_index
  | fulltext
deriving DecidableEq

/-- A detected index-worthy pattern (`IndexPattern`). -/
structure IndexPattern where
  column : String
  pattern : PatternType
  table_hint : String := ""
deriving DecidableEq

/-- A concrete index recommendation (`IndexRecommendation`). -/
structure IndexRecommendation where
  column : String
  index_type : IndexType
  expression : String
  reason : String
deriving DecidableEq

/-- An index advisor maps a pattern to a recommendation
(`IndexAdvisor.recommend_index`). -/
def Advisor : Type := IndexPattern → Option IndexRecommendation

/-! ## Dialect templates

A Python dialect rendering method interleaves fixed text with calls to
zero-argument callbacks that render sub-expressions into the shared
buffer.  Each such method becomes a template: a list of text chunks and
numbered holes, run strictly in order, so callback order (and with it
parameter order in parameterized mode) is preserved. -/

/-- One template item: literal text or the k-th callback. -/
inductive TItem where
  | txt (s : String)
  | hole (k : Nat)

/-- A rendering template. -/
def Tpl : Type := List TItem

/-- Run a template against a callback selector. -/
def runTpl (cb : Nat → M Unit) : Tpl → M Unit
  | [] => mpure ()
  | TItem.txt t :: rest => mbind (wr t) (fun _ => runTpl cb rest)
  | TItem.hole k :: rest => mbind (cb k) (fun _ => runTpl cb rest)

/-- Dialect backend record: the rendering operations of `Dialect` that the
embedded converter paths call, one value per engine.  A Python method that
the concrete dialect class lacks, or whose signature cannot accept the
arguments the converter passes, is an `Except.error` value carrying the
corresponding Python-level error kind. -/
structure SqlDialect where
  dname : String
  write_string_literal : String → String
  write_param_placeholder : Nat → String
  write_string_concat : Tpl
  write_like_escape : String
  write_array_membership : Tpl
  write_cast_to_numeric : Except Err Tpl
  write_array_length : Nat → Tpl
  write_list_index : Tpl
  write_list_index_const : Nat → Tpl
  write_array_literal_open : String
  write_array_literal_close : String
  write_json_field_access : String → Bool → Tpl
  write_timestamp_arithmetic : String → Tpl
  write_contains : Tpl
  write_unnest : Tpl
  write_array_subquery_open : String
  write_array_subquery_expr_close : Except Err String
  write_struct_open : String
  write_struct_close : String
  convert_regex : String → Except Err (String × Bool)
  write_regex_match : String → Bool → Except Err Tpl
  supports_native_arrays : Bool
  supports_jsonb : Bool
  recommend_index : Option Advisor

/-- The arity-mismatch TypeError raised when the converter calls
`PostgresDialect.write_cast_to_numeric(self._w, callback)` against the
callback-less signature `write_cast_to_numeric(self, w)` kept at
`dialect/postgres.py` line 71 (and in the abstract base): Python rejects
the extra positional argument before the method body runs. -/
def pgCastArityErr : Err :=
  mkErr .python_type_error
    "TypeError: write_cast_to_numeric() takes 2 positional arguments but 3 were given"

/-- The AttributeError raised when the converter calls
`write_array_subquery_expr_close`, which `PostgresDialect` does not
define. -/
def pgExprCloseMissingErr : Err :=
  mkErr .python_attribute_error
    "AttributeError: PostgresDialect has no attribute write_array_subquery_expr_close"

/-- The unsupported-feature error of the SQLite regex entry points. -/
def sqliteRegexErr : Err :=
  mkErr .unsupported_dialect_feature "regex not supported by SQLite dialect"
    "SQLite does not have built-in regex support"

/-- Modelled from the spec: `PostgresDialect.convert_regex` is called by
the converter on every `matches()` but is not among the source file's
methods; per §2/§15 the PostgreSQL family translates source regex syntax
to POSIX ERE via `convert_re2_to_posix` (whose docstring names PostgreSQL
as its target). -/
def pgConvertRegex : String → Except Err (String × Bool) := convert_re2_to_posix

/-- Modelled from the spec: the PostgreSQL index advisor
(`recommend_index`) is exercised by `analyze` but is not among the source
files; §4.3 maps comparison patterns to B-tree and regex/JSON/array
patterns to GIN (trigram GIN for regex). -/
def pgRecommend : Advisor := fun p =>
  match p.pattern with
  | .comparison => some
      { column := p.column, index_type := .btree,
        expression := "CREATE INDEX idx_" ++ p.column ++ " ON " ++ p.table_hint ++
          " (" ++ p.column ++ ")",
        reason := "B-tree index speeds up comparison filters" }
  | .json_access => some
      { column := p.column, index_type := .gin,
        expression := "CREATE INDEX idx_" ++ p.column ++ " ON " ++ p.table_hint ++
          " USING GIN (" ++ p.column ++ ")",
        reason := "GIN index speeds up JSON path access" }
  | .regex_match => some
      { column := p.column, index_type := .gin,
        expression := "CREATE INDEX idx_" ++ p.column ++ " ON " ++ p.table_hint ++
          " USING GIN (" ++ p.column ++ " gin_trgm_ops)",
        reason := "Trigram GIN index speeds up regex matching" }
  | .array_membership => some
      { column := p.column, index_type := .gin,
        expression := "CREATE INDEX idx_" ++ p.column ++ " ON " ++ p.table_hint ++
          " USING GIN (" ++ p.column ++ ")",
        reason := "GIN index speeds up array membership" }
  | .array_comprehension => some
      { column := p.column, index_type := .gin,
        expression := "CREATE INDEX idx_" ++ p.column ++ " ON " ++ p.table_hint ++
          " USING GIN (" ++ p.column ++ ")",
        reason := "GIN index speeds up array comprehensions" }
  | .json_array_comprehension => some
      { column := p.column, index_type := .gin,
        expression := "CREATE INDEX idx_" ++ p.column ++ " ON " ++ p.table_hint ++
          " USING GIN (" ++ p.column ++ ")",
        reason := "GIN index speeds up JSON array comprehensions" }

/-- PostgreSQL dialect (`dialect/postgres.py`). -/
def postgresDialect : SqlDialect where
  dname := "postgresql"
  write_string_literal := fun v => "'" ++ escape_string_literal v ++ "'"
  write_param_placeholder := fun n => "$" ++ toString n
  write_string_concat := [.hole 0, .txt " || ", .hole 1]
  write_like_escape := " ESCAPE E'\\\\'"
  write_array_membership := [.hole 0, .txt " = ANY(", .hole 1, .txt ")"]
  write_cast_to_numeric := Except.error pgCastArityErr
  write_array_length := fun dim =>
    [.txt "COALESCE(ARRAY_LENGTH(", .hole 0, .txt (", " ++ toString dim ++ "), 0)")]
  write_list_index := [.hole 0, .txt "[", .hole 1, .txt " + 1]"]
  write_list_index_const := fun i => [.hole 0, .txt ("[" ++ toString (i + 1) ++ "]")]
  write_array_literal_open := "ARRAY["
  write_array_literal_close := "]"
  write_json_field_access := fun f final =>
    [.hole 0, .txt ((if final then "->>'" else "->'") ++ escape_string_literal f ++ "'")]
  write_timestamp_arithmetic := fun op => [.hole 0, .txt (" " ++ op ++ " "), .hole 1]
  write_contains := [.txt "POSITION(", .hole 1, .txt " IN ", .hole 0, .txt ") > 0"]
  write_unnest := [.txt "UNNEST(", .hole 0, .txt ")"]
  write_array_subquery_open := "ARRAY(SELECT "
  write_array_subquery_expr_close := Except.error pgExprCloseMissingErr
  write_struct_open := "ROW("
  write_struct_close := ")"
  convert_regex := pgConvertRegex
  write_regex_match := fun p ci =>
    Except.ok [.hole 0,
      .txt ((if ci then " ~* " else " ~ ") ++ "'" ++ escape_string_literal p ++ "'")]
  supports_native_arrays := true
  supports_jsonb := true
  recommend_index := some pgRecommend

/-- SQLite dialect (`dialect/sqlite.py`): no regex, JSON-emulated arrays;
modelled from the spec for the advisor: the spec's advisor-less dialect
(§4.3), as no SQLite advisor appears anywhere in sources or tests. -/
def sqliteDialect : SqlDialect where
  dname := "sqlite"
  write_string_literal := fun v => "'" ++ escape_string_literal v ++ "'"
  write_param_placeholder := fun _ => "?"
  write_string_concat := [.hole 0, .txt " || ", .hole 1]
  write_like_escape := " ESCAPE '\\'"
  write_array_membership :=
    [.hole 0, .txt " IN (SELECT value FROM json_each(", .hole 1, .txt "))"]
  write_cast_to_numeric := Except.ok [.hole 0, .txt " + 0"]
  write_array_length := fun _ =>
    [.txt "COALESCE(json_array_length(", .hole 0, .txt "), 0)"]
  write_list_index :=
    [.txt "json_extract(", .hole 0, .txt ", '$[' || ", .hole 1, .txt " || ']')"]
  write_list_index_const := fun i =>
    [.txt "json_extract(", .hole 0, .txt (", '$[" ++ toString i ++ "]')")]
  write_array_literal_open := "json_array("
  write_array_literal_close := ")"
  write_json_field_access := fun f _ =>
    [.txt "json_extract(", .hole 0, .txt (", '$." ++ escape_string_literal f ++ "')")]
  write_timestamp_arithmetic := fun op =>
    if op = "-" then
      [.txt "datetime(", .hole 0, .txt ", ", .txt "REPLACE(", .hole 1,
       .txt ", '+', '-')", .txt ")"]
    else
      [.txt "datetime(", .hole 0, .txt ", ", .hole 1, .txt ")"]
  write_contains := [.txt "INSTR(", .hole 0, .txt ", ", .hole 1, .txt ") > 0"]
  write_unnest := [.txt "json_each(", .hole 0, .txt ")"]
  write_array_subquery_open := "(SELECT json_group_array("
  write_array_subquery_expr_close := Except.ok ")"
  write_struct_open := "json_object("
  write_struct_close := ")"
  convert_regex := fun _ => Except.error sqliteRegexErr
  write_regex_match := fun _ _ => Except.error sqliteRegexErr
  supports_native_arrays := false
  supports_jsonb := false
  recommend_index := none

/-- MySQL dialect (`dialect/mysql.py`); `convert_regex` delegates to the
spec-modelled `convert_re2_to_mysql`, and the advisor (absent from the
sources, fulltext per the §4.3 priority table) is modelled from the
spec. -/
def mysqlDialect : SqlDialect where
  dname := "mysql"
  write_string_literal := fun v => "'" ++ escape_string_literal v ++ "'"
  write_param_placeholder := fun _ => "?"
  write_string_concat := [.txt "CONCAT(", .hole 0, .txt ", ", .hole 1, .txt ")"]
  write_like_escape := " ESCAPE '\\\\'"
  write_array_membership :=
    [.txt "JSON_CONTAINS(", .hole 1, .txt ", JSON_EXTRACT(JSON_ARRAY(", .hole 0,
     .txt "), '$[0]'))"]
  write_cast_to_numeric := Except.ok [.hole 0, .txt " + 0"]
  write_array_length := fun _ => [.txt "COALESCE(JSON_LENGTH(", .hole 0, .txt "), 0)"]
  write_list_index :=
    [.txt "JSON_EXTRACT(", .hole 0, .txt ", CONCAT('$[', ", .hole 1, .txt ", ']'))"]
  write_list_index_const := fun i =>
    [.txt "JSON_EXTRACT(", .hole 0, .txt (", '$[" ++ toString i ++ "]')")]
  write_array_literal_open := "JSON_ARRAY("
  write_array_literal_close := ")"
  write_json_field_access := fun f final =>
    [.hole 0, .txt ((if final then "->>'$." else "->'$.") ++ escape_string_literal f ++ "'")]
  write_timestamp_arithmetic := fun op => [.hole 0, .txt (" " ++ op ++ " "), .hole 1]
  write_contains := [.txt "LOCATE(", .hole 1, .txt ", ", .hole 0, .txt ") > 0"]
  write_unnest :=
    [.txt "JSON_TABLE(", .hole 0, .txt ", '$[*]' COLUMNS(value TEXT PATH '$'))"]
  write_array_subquery_open := "(SELECT JSON_ARRAYAGG("
  write_array_subquery_expr_close := Except.ok ")"
  write_struct_open := "ROW("
  write_struct_close := ")"
  convert_regex := convert_re2_to_mysql
  write_regex_match := fun p _ =>
    Except.ok [.hole 0, .txt (" REGEXP " ++ "'" ++ escape_string_literal p ++ "'")]
  supports_native_arrays := false
  supports_jsonb := false
  recommend_index := some (fun p =>
    match p.pattern with
    | .comparison => some
        { column := p.column, index_type := .btree,
          expression := "CREATE INDEX idx_" ++ p.column ++ " ON " ++ p.table_hint ++
            " (" ++ p.column ++ ")",
          reason := "B-tree index speeds up comparison filters" }
    | .regex_match => some
        { column := p.column, index_type := .fulltext,
          expression := "CREATE FULLTEXT INDEX idx_" ++ p.column ++ " ON " ++
            p.table_hint ++ " (" ++ p.column ++ ")",
          reason := "Fulltext index assists text matching" }
    | _ => none)

/-- DuckDB dialect (`dialect/duckdb.py`); `convert_regex` delegates to the
spec-modelled `convert_re2_to_re2_native`, and the advisor (absent from
the sources, ART per the §4.3 priority table) is modelled from the
spec. -/
def duckdbDialect : SqlDialect where
  dname := "duckdb"
  write_string_literal := fun v => "'" ++ escape_string_literal v ++ "'"
  write_param_placeholder := fun n => "$" ++ toString n
  write_string_concat := [.hole 0, .txt " || ", .hole 1]
  write_like_escape := " ESCAPE '\\'"
  write_array_membership := [.hole 0, .txt " = ANY(", .hole 1, .txt ")"]
  write_cast_to_numeric := Except.ok [.hole 0, .txt "::DOUBLE"]
  write_array_length := fun _ => [.txt "COALESCE(array_length(", .hole 0, .txt "), 0)"]
  write_list_index := [.hole 0, .txt "[", .hole 1, .txt " + 1]"]
  write_list_index_const := fun i => [.hole 0, .txt ("[" ++ toString (i + 1) ++ "]")]
  write_array_literal_open := "["
  write_array_literal_close := "]"
  write_json_field_access := fun f final =>
    [.hole 0, .txt ((if final then "->>'" else "->'") ++ escape_string_literal f ++ "'")]
  write_timestamp_arithmetic := fun op => [.hole 0, .txt (" " ++ op ++ " "), .hole 1]
  write_contains := [.txt "CONTAINS(", .hole 0, .txt ", ", .hole 1, .txt ")"]
  write_unnest := [.txt "UNNEST(", .hole 0, .txt ")"]
  write_array_subquery_open := "ARRAY(SELECT "
  write_array_subquery_expr_close := Except.ok ""
  write_struct_open := "ROW("
  write_struct_close := ")"
  convert_regex := convert_re2_to_re2_native
  write_regex_match := fun p ci =>
    Except.ok (if ci then
      [.txt "regexp_matches(", .hole 0,
       .txt (", '" ++ escape_string_literal p ++ "', 'i')")]
    else
      [.txt "regexp_matches(", .hole 0, .txt (", '" ++ escape_string_literal p ++ "')")])
  supports_native_arrays := true
  supports_jsonb := false
  recommend_index := some (fun p =>
    match p.pattern with
    | .comparison => some
        { column := p.column, index_type := .art,
          expression := "CREATE INDEX idx_" ++ p.column ++ " ON " ++ p.table_hint ++
            " (" ++ p.column ++ ")",
          reason := "ART index speeds up comparison filters" }
    | _ => none)

/-- BigQuery dialect (`dialect/bigquery.py`); `convert_regex` delegates to
the spec-modelled `convert_re2_to_re2_native`, and the advisor (absent
from the sources, clustering/search-index per the §4.3 priority table) is
modelled from the spec. -/
def bigqueryDialect : SqlDialect where
  dname := "bigquery"
  write_string_literal := fun v =>
    "'" ++ replS (replS v "\\" "\\\\") "'" "\\'" ++ "'"
  write_param_placeholder := fun n => "@p" ++ toString n
  write_string_concat := [.hole 0, .txt " || ", .hole 1]
  write_like_escape := ""
  write_array_membership := [.hole 0, .txt " IN UNNEST(", .hole 1, .txt ")"]
  write_cast_to_numeric := Except.ok [.txt "CAST(", .hole 0, .txt " AS FLOAT64)"]
  write_array_length := fun _ => [.txt "ARRAY_LENGTH(", .hole 0, .txt ")"]
  write_list_index := [.hole 0, .txt "[OFFSET(", .hole 1, .txt ")]"]
  write_list_index_const := fun i => [.hole 0, .txt ("[OFFSET(" ++ toString i ++ ")]")]
  write_array_literal_open := "["
  write_array_literal_close := "]"
  write_json_field_access := fun f final =>
    [.txt (if final then "JSON_VALUE(" else "JSON_QUERY("), .hole 0,
     .txt (", '$." ++ replS (replS f "\\" "\\\\") "'" "\\'" ++ "')")]
  write_timestamp_arithmetic := fun op =>
    if op = "+" then [.txt "TIMESTAMP_ADD(", .hole 0, .txt ", ", .hole 1, .txt ")"]
    else [.txt "TIMESTAMP_SUB(", .hole 0, .txt ", ", .hole 1, .txt ")"]
  write_contains := [.txt "STRPOS(", .hole 0, .txt ", ", .hole 1, .txt ") > 0"]
  write_unnest := [.txt "UNNEST(", .hole 0, .txt ")"]
  write_array_subquery_open := "ARRAY(SELECT "
  write_array_subquery_expr_close := Except.ok ""
  write_struct_open := "STRUCT("
  write_struct_close := ")"
  convert_regex := convert_re2_to_re2_native
  write_regex_match := fun p ci =>
    Except.ok [.txt "REGEXP_CONTAINS(", .hole 0,
      .txt (", '" ++ (if ci then "(?i)" else "") ++
        replS (replS p "\\" "\\\\") "'" "\\'" ++ "')")]
  supports_native_arrays := true
  supports_jsonb := false
  recommend_index := some (fun p =>
    match p.pattern with
    | .comparison => some
        { column := p.column, index_type := .clustering,
          expression := "ALTER TABLE " ++ p.table_hint ++ " CLUSTER BY " ++ p.column,
          reason := "Clustering speeds up comparison filters" }
    | _ => none)

/-- Modelled from the spec: `get_index_advisor` is imported from
`dialect/_base.py` by `analyze` but is not among the source files.  §4.3:
"A Dialect that has no advisor (no `recommend_index`/`supported_patterns`)
yields an empty recommendation list without error"; so it returns the
dialect's advisor when the dialect defines one and `None` otherwise. -/
def get_index_advisor (d : SqlDialect) : Option Advisor := d.recommend_index

end Pycel

namespace Pycel

/-! ## Converter configuration and state operations -/

/-- Modelled from the spec: the sanitized schema-validation message
constant `ERR_MSG_SCHEMA_VALIDATION_FAILED` is imported by the converter
from `_errors.py` but is not among that file's constants; its value is
fixed by the test suite's assertion that the user-facing message contains
"field not found in schema" and by §7 (sanitized, no offending name). -/
def errMsgSchemaValidationFailed : String := "field not found in schema"

/-- Converter configuration: the constructor arguments of `Converter`
(dialect, schemas, limits, modes), fixed for the run. -/
structure ConvCfg where
  dialect : SqlDialect
  schemas : Schemas := []
  maxDepth : Nat := 100
  maxOutputLength : Nat := 50000
  parameterize : Bool := false
  validateSchema : Bool := false

/-- Constructor check of `Converter.__init__`: `validate_schema=True` with
a falsy (empty) schemas mapping raises an `InvalidSchemaError`
immediately.  Note the check is on the mapping being empty, not on any
schema in it being non-empty. -/
def mkConverter (cfg : ConvCfg) : Except Err ConvCfg :=
  if cfg.validateSchema ∧ cfg.schemas.isEmpty then
    Except.error (mkErr .invalid_schema errMsgSchemaValidationFailed
      "validate_schema=True requires at least one schema to be provided")
  else
    Except.ok cfg

/-- Resource-limit check (`Converter._check_limits`). -/
def checkLimits (cfg : ConvCfg) : M Unit :=
  mbind getS (fun s =>
    if s.depth > cfg.maxDepth then
      raise (mkErr .max_depth_exceeded "maximum recursion depth exceeded"
        ("depth " ++ toString s.depth ++ " exceeds limit " ++ toString cfg.maxDepth))
    else if s.buf.length > cfg.maxOutputLength then
      raise (mkErr .max_output_length_exceeded "maximum SQL output length exceeded"
        ("output length exceeds limit " ++ toString cfg.maxOutputLength))
    else
      mpure ())

/-- Append a parameter and return its 1-based index
(`Converter._add_param`). -/
def addParam (v : Value) : M Nat := fun s =>
  (Except.ok (s.paramCount + 1),
   { s with paramCount := s.paramCount + 1, params := s.params ++ [v] })

/-- Lift a validation result (`None` = pass) into the monad. -/
def liftO : Option Err → M Unit
  | some e => raise e
  | none => mpure ()

/-- Visit a child behind the depth counter (`Converter._visit_child`):
increment, check limits, visit, and decrement in a `finally`. -/
def visitChildAux (cfg : ConvCfg) (v : PTree → M Unit) (t : PTree) : M Unit :=
  mbind (modifyS (fun s => { s with depth := s.depth + 1 }))
    (fun _ => tryFin (mbind (checkLimits cfg) (fun _ => v t))
      (fun s => { s with depth := s.depth - 1 }))

/-- Callback selector for a one-hole template. -/
def cb1 (a : M Unit) : Nat → M Unit
  | 0 => a
  | _ => mpure ()

/-- Callback selector for a two-hole template. -/
def cb2 (a b : M Unit) : Nat → M Unit
  | 0 => a
  | 1 => b
  | _ => mpure ()

/-- Python-level IndexError (a raw `children[i]` on a too-short list). -/
def pyIndexErr : Err := mkErr .python_index_error "IndexError: list index out of range"

/-- Marker for converter branches outside every claim's scope. -/
def unmodeledErr (what : String) : Err :=
  mkErr .unmodeled ("unmodeled converter branch: " ++ what)

/-! ## Schema-dependent helpers of the converter -/

/-- JSON-field test (`Converter._is_field_json`). -/
def isFieldJson (cfg : ConvCfg) (tbl f : String) : Bool :=
  match schemasGet cfg.schemas tbl with
  | none => false
  | some sch => match sch.find_field f with
    | some fs => fs.is_json || fs.is_jsonb
    | none => false

/-- JSONB-field test (`Converter._is_field_jsonb`). -/
def isFieldJsonb (cfg : ConvCfg) (tbl f : String) : Bool :=
  match schemasGet cfg.schemas tbl with
  | none => false
  | some sch => match sch.find_field f with
    | some fs => fs.is_jsonb
    | none => false

/-- Array-field test (`Converter._is_field_array`). -/
def isFieldArray (cfg : ConvCfg) (tbl f : String) : Bool :=
  match schemasGet cfg.schemas tbl with
  | none => false
  | some sch => match sch.find_field f with
    | some fs => fs.repeated
    | none => false

/-- Nested-JSON-field test (`Converter._is_nested_json_field`). -/
def isNestedJsonField (cfg : ConvCfg) : PTree → Bool
  | .nd "member_dot" (obj :: ntok :: _) =>
    (match getRootIdent obj with
     | some tbl => isFieldJson cfg tbl (getFirstField obj (textOf ntok))
     | none => false)
  | _ => false

/-- Wrapper rule names unwrapped by `_is_json_text_extraction` and
`_is_array_expression`. -/
def wrapperRules : List String :=
  ["expr", "conditionalor", "conditionaland", "relation",
   "addition", "multiplication", "unary", "member", "primary"]

/-- Unwrap the single-child wrapper chain. -/
def unwrapWrapperChain (t : PTree) : PTree :=
  match t with
  | .nd d [c] => if d ∈ wrapperRules then unwrapWrapperChain c else .nd d [c]
  | other => other

/-- JSON-text-extraction test (`Converter._is_json_text_extraction`). -/
def isJsonTextExtraction (cfg : ConvCfg) (t : PTree) : Bool :=
  match unwrapWrapperChain t with
  | .nd "member_dot" cs => isNestedJsonField cfg (.nd "member_dot" cs)
  | _ => false

/-- Array-producing-expression test (`Converter._is_array_expression`). -/
def isArrayExpression (cfg : ConvCfg) (t : PTree) : Bool :=
  match unwrapWrapperChain t with
  | .nd "list_lit" _ => true
  | .nd "member_dot_arg" cs =>
    (match cs with
     | _ :: mtok :: _ => textOf mtok ∈ ["split", "filter", "map"]
     | _ => false)
  | .nd "member_dot" cs =>
    (match cs with
     | obj :: ntok :: _ =>
       (match getRootIdent obj with
        | some tbl => isFieldArray cfg tbl (textOf ntok)
        | none => false)
     | _ => false)
  | .nd "ident" cs =>
    (match cs with
     | c :: _ => cfg.schemas.any (fun p =>
         match p.2.find_field (textOf c) with
         | some fs => fs.repeated
         | none => false)
     | [] => false)
  | _ => false

/-- Schema validation of one rooted field access
(`Converter._validate_field_in_schema`): a no-op unless `validate_schema`
is set; then the table must be in the schemas and the (first) field in the
table's schema, with the internal message naming the missing item. -/
def validate_field_in_schema (cfg : ConvCfg) (tbl f : String) : Option Err :=
  if ¬ cfg.validateSchema then none
  else match schemasGet cfg.schemas tbl with
    | none => some (mkErr .invalid_schema errMsgSchemaValidationFailed
        ("table '" ++ tbl ++ "' not found in schemas"))
    | some sch => match sch.find_field f with
      | none => some (mkErr .invalid_schema errMsgSchemaValidationFailed
          ("field '" ++ f ++ "' not found in schema for '" ++ tbl ++ "'"))
      | some _ => none

/-! ## JSON path synthesis (`Converter._build_json_path`) -/

/-- Fueled chain collection (see `collectJson`; the fuel, the tree size at
the top call, strictly bounds the descent). -/
def collectJsonGo : Nat → PTree → List String × PTree
  | 0, t => ([], t)
  | fuel + 1, t =>
    match t with
    | .nd "member_dot" (obj :: ntok :: _rest) =>
      let pr := collectJsonGo fuel (unwrapMemPrim obj)
      (pr.1 ++ [textOf ntok], pr.2)
    | other => ([], other)

/-- Collect the field-name chain of a `member_dot` tree, innermost first,
together with the root node below the chain (the `parts`/`node` loop of
`_build_json_path`, which unwraps `member`/`primary` single-child wrappers
between chain steps). -/
def collectJson (t : PTree) : List String × PTree := collectJsonGo (tsize t) t

/-- Chain the JSON accessors over the trailing path segments: every
non-final segment builds a deferred object-extract callback, the final
segment renders with the scalar/text accessor. -/
def jsonChain (d : SqlDialect) (base : M Unit) : List String → M Unit
  | [] => mpure ()
  | p :: rest =>
    match rest with
    | [] => runTpl (cb1 base) (d.write_json_field_access p true)
    | _ :: _ => jsonChain d (runTpl (cb1 base) (d.write_json_field_access p false)) rest

/-- Render a `member_dot` chain over a JSON column
(`Converter._build_json_path`). -/
def buildJsonPath (cfg : ConvCfg) (vc : PTree → M Unit) (t : PTree) : M Unit :=
  let pr := collectJson t
  match pr.1 with
  | [] => raise pyIndexErr
  | [p0] => mbind (vc pr.2) (fun _ => wr ("." ++ p0))
  | p0 :: p1 :: prest =>
    jsonChain cfg.dialect (mbind (vc pr.2) (fun _ => wr ("." ++ p0))) (p1 :: prest)

/-! ## Operator tables (`_operators.py`) -/

/-- Lark relation rule name to SQL operator (`COMPARISON_OPERATORS`). -/
def comparisonOp? : String → Option String
  | "relation_eq" => some "="
  | "relation_ne" => some "!="
  | "relation_lt" => some "<"
  | "relation_le" => some "<="
  | "relation_gt" => some ">"
  | "relation_ge" => some ">="
  | _ => none

/-- NULL-aware operators (`NULL_AWARE_OPS`). -/
def isNullAwareOp (op : String) : Bool := op = "relation_eq" || op = "relation_ne"

/-- Test a literal-token option against a token-type predicate (the
`lit and _is_x_token(lit)` idiom). -/
def litIs (o : Option (String × String)) (p : String → Bool) : Bool :=
  match o with
  | some (ty, _) => p ty
  | none => false

/-- Text of a literal-token option (empty when absent; only read behind a
successful `litIs`). -/
def litText (o : Option (String × String)) : String :=
  match o with
  | some (_, tx) => tx
  | none => ""

end Pycel

namespace Pycel

/-! ## Converter handlers

Each lark rule's handler method becomes a definition parameterized by the
configuration and the child-visit action `vc` (which is
`visitChildAux cfg (visitF cfg fuel)` at the recursive knot). -/

/-- Handler `expr`: ternary or passthrough. -/
def exprH (vc : PTree → M Unit) (cs : List PTree) : M Unit :=
  match cs with
  | [c1, c2, c3] =>
    mbind (wr "CASE WHEN ") (fun _ => mbind (vc c1) (fun _ =>
      mbind (wr " THEN ") (fun _ => mbind (vc c2) (fun _ =>
        mbind (wr " ELSE ") (fun _ => mbind (vc c3) (fun _ => wr " END"))))))
  | [c] => vc c
  | _ => raise (mkErr .unsupported_expression "unsupported expression structure"
      ("expr node has " ++ toString cs.length ++ " children"))

/-- Handler `conditionalor`. -/
def conditionalorH (vc : PTree → M Unit) (cs : List PTree) : M Unit :=
  match cs with
  | [a, b] => mbind (vc a) (fun _ => mbind (wr " OR ") (fun _ => vc b))
  | [c] => vc c
  | _ => raise (mkErr .unsupported_expression "unsupported OR expression"
      ("conditionalor has " ++ toString cs.length ++ " children"))

/-- Handler `conditionaland`. -/
def conditionalandH (vc : PTree → M Unit) (cs : List PTree) : M Unit :=
  match cs with
  | [a, b] => mbind (vc a) (fun _ => mbind (wr " AND ") (fun _ => vc b))
  | [c] => vc c
  | _ => raise (mkErr .unsupported_expression "unsupported AND expression"
      ("conditionaland has " ++ toString cs.length ++ " children"))

/-- The IN operator (`Converter._visit_in`; its two branches are
identical). -/
def visitInH (cfg : ConvCfg) (vc : PTree → M Unit) (lhs rhs : PTree) : M Unit :=
  runTpl (cb2 (vc lhs) (vc rhs)) cfg.dialect.write_array_membership

/-- The dialect numeric-cast call of the relation handler: the converter
passes the operand callback `lambda: (write "(", visit, write ")")`; a
dialect whose method cannot take it surfaces its Python-level error. -/
def castNumericCall (cfg : ConvCfg) (vc : PTree → M Unit) (t : PTree) : M Unit :=
  match cfg.dialect.write_cast_to_numeric with
  | Except.error e => raise e
  | Except.ok tpl =>
    runTpl (cb1 (mbind (wr "(") (fun _ => mbind (vc t) (fun _ => wr ")")))) tpl

/-- The `IS`-comparison suffix for a boolean literal operand. -/
def boolIsSuffix (opName : String) (bv : Bool) : String :=
  if opName = "relation_eq" then (if bv then " IS TRUE" else " IS FALSE")
  else (if bv then " IS NOT TRUE" else " IS NOT FALSE")

/-- Generic comparison tail of the relation handler: operator lookup, the
JSON-numeric-cast cases, and the plain comparison. -/
def relationGenericH (cfg : ConvCfg) (vc : PTree → M Unit)
    (opName : String) (lhs rhs : PTree) : M Unit :=
  match comparisonOp? opName with
  | none => raise (mkErr .unsupported_expression "unsupported comparison operator"
      ("unknown relation operator: " ++ opName))
  | some sqlOp =>
    if opName ∈ ["relation_lt", "relation_le", "relation_gt", "relation_ge",
        "relation_eq", "relation_ne"] then
      let rhsNum := isNumericLiteral rhs
      let lhsNum := isNumericLiteral lhs
      if isJsonTextExtraction cfg lhs && rhsNum then
        mbind (castNumericCall cfg vc lhs) (fun _ =>
          mbind (wr (" " ++ sqlOp ++ " ")) (fun _ => vc rhs))
      else if isJsonTextExtraction cfg rhs && lhsNum then
        mbind (vc lhs) (fun _ => mbind (wr (" " ++ sqlOp ++ " ")) (fun _ =>
          castNumericCall cfg vc rhs))
      else
        mbind (vc lhs) (fun _ => mbind (wr (" " ++ sqlOp ++ " ")) (fun _ => vc rhs))
    else
      mbind (vc lhs) (fun _ => mbind (wr (" " ++ sqlOp ++ " ")) (fun _ => vc rhs))

/-- Handler `relation`: IN, the null/bool `IS` lowerings, then the generic
comparison. -/
def relationH (cfg : ConvCfg) (vc : PTree → M Unit) (cs : List PTree) : M Unit :=
  match cs with
  | [c] => vc c
  | [opNode, rhs] =>
    (match opNode with
     | .tk _ _ => raise (mkErr .unsupported_expression "unsupported relation operator"
         "expected Tree, got Token")
     | .nd opName opCs =>
       match opCs with
       | [] => raise pyIndexErr
       | lhs :: _ =>
         if opName = "relation_in" then
           visitInH cfg vc lhs rhs
         else
           let rhsLit := getLiteralToken rhs
           let lhsLit := getLiteralToken lhs
           if isNullAwareOp opName then
             if litIs rhsLit isNullTokT then
               mbind (vc lhs) (fun _ =>
                 wr (if opName = "relation_eq" then " IS NULL" else " IS NOT NULL"))
             else if litIs lhsLit isNullTokT then
               mbind (vc rhs) (fun _ =>
                 wr (if opName = "relation_eq" then " IS NULL" else " IS NOT NULL"))
             else if litIs rhsLit isBoolTokT then
               mbind (vc lhs) (fun _ =>
                 wr (boolIsSuffix opName (lowerS (litText rhsLit) = "true")))
             else if litIs lhsLit isBoolTokT then
               mbind (vc rhs) (fun _ =>
                 wr (boolIsSuffix opName (lowerS (litText lhsLit) = "true")))
             else
               relationGenericH cfg vc opName lhs rhs
           else
             relationGenericH cfg vc opName lhs rhs)
  | _ => raise (mkErr .unsupported_expression "unsupported relation expression"
      ("relation has " ++ toString cs.length ++ " children"))

/-- Prefix-node passthrough (`relation_eq` through `relation_in`,
`addition_add`/`addition_sub`, `multiplication_*`: each visits its first
child). -/
def prefixPassH (vc : PTree → M Unit) (cs : List PTree) : M Unit :=
  match cs with
  | c :: _ => vc c
  | [] => raise pyIndexErr

/-- Handler `addition` with its temporal, string-concat and list-concat
special cases. -/
def additionH (cfg : ConvCfg) (vc : PTree → M Unit) (cs : List PTree) : M Unit :=
  match cs with
  | [c] => vc c
  | [opNode, rhs] =>
    (match opNode with
     | .tk _ _ => raise (mkErr .unsupported_expression "unsupported addition operator")
     | .nd opName opCs =>
       match opCs with
       | [] => raise pyIndexErr
       | lhs :: _ =>
         if opName = "addition_add" then
           if treeHasTemporal lhs || treeHasTemporal rhs then
             if isDurationExpression lhs && ¬ isDurationExpression rhs then
               runTpl (cb2 (vc rhs) (vc lhs)) (cfg.dialect.write_timestamp_arithmetic "+")
             else
               runTpl (cb2 (vc lhs) (vc rhs)) (cfg.dialect.write_timestamp_arithmetic "+")
           else if treeContainsStringLiteral lhs || treeContainsStringLiteral rhs then
             runTpl (cb2 (vc lhs) (vc rhs)) cfg.dialect.write_string_concat
           else if treeIsListLiteral lhs || treeIsListLiteral rhs then
             runTpl (cb2 (vc lhs) (vc rhs)) cfg.dialect.write_string_concat
           else
             mbind (vc lhs) (fun _ => mbind (wr " + ") (fun _ => vc rhs))
         else if opName = "addition_sub" then
           if treeHasTemporal lhs || treeHasTemporal rhs then
             runTpl (cb2 (vc lhs) (vc rhs)) (cfg.dialect.write_timestamp_arithmetic "-")
           else
             mbind (vc lhs) (fun _ => mbind (wr " - ") (fun _ => vc rhs))
         else
           raise (mkErr .unsupported_expression "unsupported addition operator"
             ("unknown addition operator: " ++ opName)))
  | _ => raise (mkErr .unsupported_expression "unsupported addition expression"
      ("addition has " ++ toString cs.length ++ " children"))

/-- Handler `multiplication`. -/
def multiplicationH (vc : PTree → M Unit) (cs : List PTree) : M Unit :=
  match cs with
  | [c] => vc c
  | [opNode, rhs] =>
    (match opNode with
     | .tk _ _ => raise (mkErr .unsupported_expression "unsupported multiplication operator")
     | .nd opName opCs =>
       match opCs with
       | [] => raise pyIndexErr
       | lhs :: _ =>
         if opName = "multiplication_mul" then
           mbind (vc lhs) (fun _ => mbind (wr " * ") (fun _ => vc rhs))
         else if opName = "multiplication_div" then
           mbind (vc lhs) (fun _ => mbind (wr " / ") (fun _ => vc rhs))
         else if opName = "multiplication_mod" then
           mbind (wr "MOD(") (fun _ => mbind (vc lhs) (fun _ =>
             mbind (wr ", ") (fun _ => mbind (vc rhs) (fun _ => wr ")"))))
         else
           raise (mkErr .unsupported_expression "unsupported multiplication operator"
             ("unknown multiplication operator: " ++ opName)))
  | _ => raise (mkErr .unsupported_expression "unsupported multiplication expression"
      ("multiplication has " ++ toString cs.length ++ " children"))

/-- Handler `unary`. -/
def unaryH (vc : PTree → M Unit) (cs : List PTree) : M Unit :=
  match cs with
  | [c] => vc c
  | [opNode, operand] =>
    (match opNode with
     | .nd "unary_not" _ => mbind (wr "NOT ") (fun _ => vc operand)
     | .nd "unary_neg" _ => mbind (wr "-") (fun _ => vc operand)
     | _ => raise (mkErr .unsupported_expression "unsupported unary expression"
         "unary has 2 children"))
  | _ => raise (mkErr .unsupported_expression "unsupported unary expression"
      ("unary has " ++ toString cs.length ++ " children"))

/-- Handler `member`: passthrough only. -/
def memberH (vc : PTree → M Unit) (cs : List PTree) : M Unit :=
  match cs with
  | [c] => vc c
  | _ => raise (mkErr .unsupported_expression "unsupported member expression"
      ("member has " ++ toString cs.length ++ " children"))

/-- Handler `member_dot` (`a.b`): schema validation for rooted accesses
(comprehension variables exempt), JSON-path lowering for JSON columns,
plain dotted access otherwise — note the dot is written before the field
name is validated, as in the source. -/
def memberDotH (cfg : ConvCfg) (vc : PTree → M Unit) (cs : List PTree) : M Unit :=
  match cs with
  | obj :: nameTok :: _ =>
    let fieldName := textOf nameTok
    let tableName := getRootIdent obj
    mbind getS (fun s =>
      mbind
        (match tableName with
         | some tbl =>
           if tbl ∈ s.compVars then mpure ()
           else liftO (validate_field_in_schema cfg tbl (getFirstField obj fieldName))
         | none => mpure ())
        (fun _ =>
          let jsonCase :=
            match tableName with
            | some tbl => isFieldJson cfg tbl (getFirstField obj fieldName)
            | none => false
          if jsonCase then
            buildJsonPath cfg vc (.nd "member_dot" cs)
          else
            mbind (vc obj) (fun _ => mbind (wr ".") (fun _ =>
              mbind (liftO (validate_field_name fieldName)) (fun _ => wr fieldName)))))
  | _ => raise pyIndexErr

end Pycel

namespace Pycel

/-- Handler helper `_visit_contains`: a string-literal needle is null-byte
checked; rendering is the dialect's contains template (identical in both
modes in the source). -/
def visitContainsH (cfg : ConvCfg) (vc : PTree → M Unit) (obj : PTree)
    (args : List PTree) : M Unit :=
  match args with
  | [a0] =>
    mbind
      (match getLiteralToken a0 with
       | some (ty, tx) =>
         if isStrTokT ty then
           let raw := stripQuotes tx
           let raw := if ¬ rawPrefixed tx then processEscapes raw else raw
           liftO (validate_no_null_bytes raw "string literals")
         else mpure ()
       | none => mpure ())
      (fun _ => runTpl (cb2 (vc obj) (vc a0)) cfg.dialect.write_contains)
  | _ => raise (mkErr .invalid_arguments "contains() requires exactly 1 argument")

/-- Handler helper `_visit_starts_with`: requires a string literal, escapes
it into an inline LIKE pattern in both modes. -/
def visitStartsWithH (cfg : ConvCfg) (vc : PTree → M Unit) (obj : PTree)
    (args : List PTree) : M Unit :=
  match args with
  | [a0] =>
    (match getLiteralToken a0 with
     | some (ty, tx) =>
       if isStrTokT ty then
         let raw := stripQuotes tx
         let raw := if ¬ rawPrefixed tx then processEscapes raw else raw
         mbind (liftO (validate_no_null_bytes raw "LIKE patterns")) (fun _ =>
           mbind (vc obj) (fun _ =>
             mbind (wr (" LIKE '" ++ escape_like_pattern raw ++ "%'")) (fun _ =>
               wr cfg.dialect.write_like_escape)))
       else raise (mkErr .invalid_arguments "startsWith() requires a string literal argument")
     | none => raise (mkErr .invalid_arguments "startsWith() requires a string literal argument"))
  | _ => raise (mkErr .invalid_arguments "startsWith() requires exactly 1 argument")

/-- Handler helper `_visit_ends_with`. -/
def visitEndsWithH (cfg : ConvCfg) (vc : PTree → M Unit) (obj : PTree)
    (args : List PTree) : M Unit :=
  match args with
  | [a0] =>
    (match getLiteralToken a0 with
     | some (ty, tx) =>
       if isStrTokT ty then
         let raw := stripQuotes tx
         let raw := if ¬ rawPrefixed tx then processEscapes raw else raw
         mbind (liftO (validate_no_null_bytes raw "LIKE patterns")) (fun _ =>
           mbind (vc obj) (fun _ =>
             mbind (wr (" LIKE '%" ++ escape_like_pattern raw ++ "'")) (fun _ =>
               wr cfg.dialect.write_like_escape)))
       else raise (mkErr .invalid_arguments "endsWith() requires a string literal argument")
     | none => raise (mkErr .invalid_arguments "endsWith() requires a string literal argument"))
  | _ => raise (mkErr .invalid_arguments "endsWith() requires exactly 1 argument")

/-- Handler helper `_visit_matches_method` (`x.matches(pattern)`): the
pattern must be a string literal; the dialect converts the regex (which
may reject it) before the target is rendered. -/
def visitMatchesMethodH (cfg : ConvCfg) (vc : PTree → M Unit) (obj : PTree)
    (args : List PTree) : M Unit :=
  match args with
  | [a0] =>
    (match getLiteralToken a0 with
     | some (ty, tx) =>
       if isStrTokT ty then
         let raw := stripQuotes tx
         let raw := if ¬ rawPrefixed tx then processEscapes raw else raw
         mbind (liftE (cfg.dialect.convert_regex raw)) (fun pr =>
           mbind (liftE (cfg.dialect.write_regex_match pr.1 pr.2)) (fun tpl =>
             runTpl (cb1 (vc obj)) tpl))
       else raise (mkErr .invalid_arguments "matches() requires a string literal argument")
     | none => raise (mkErr .invalid_arguments "matches() requires a string literal argument"))
  | _ => raise (mkErr .invalid_arguments "matches() requires exactly 1 argument")

/-- Handler helper `_visit_matches_func` (`matches(target, pattern)`). -/
def visitMatchesFuncH (cfg : ConvCfg) (vc : PTree → M Unit)
    (target patternExpr : PTree) : M Unit :=
  match getLiteralToken patternExpr with
  | some (ty, tx) =>
    if isStrTokT ty then
      let raw := stripQuotes tx
      let raw := if ¬ rawPrefixed tx then processEscapes raw else raw
      mbind (liftE (cfg.dialect.convert_regex raw)) (fun pr =>
        mbind (liftE (cfg.dialect.write_regex_match pr.1 pr.2)) (fun tpl =>
          runTpl (cb1 (vc target)) tpl))
    else raise (mkErr .invalid_arguments "matches() requires a string literal pattern")
  | none => raise (mkErr .invalid_arguments "matches() requires a string literal pattern")

/-- Handler helper `_visit_size_method` / `_visit_size_func`. -/
def visitSizeH (cfg : ConvCfg) (vc : PTree → M Unit) (obj : PTree) : M Unit :=
  if isArrayExpression cfg obj then
    runTpl (cb1 (vc obj)) (cfg.dialect.write_array_length 1)
  else
    mbind (wr "LENGTH(") (fun _ => mbind (vc obj) (fun _ => wr ")"))

/-- Handler helper `_visit_char_at`. -/
def visitCharAtH (vc : PTree → M Unit) (obj : PTree) (args : List PTree) : M Unit :=
  match args with
  | [a0] =>
    mbind (wr "SUBSTRING(") (fun _ => mbind (vc obj) (fun _ =>
      mbind (wr ", ") (fun _ =>
        mbind
          (match getLiteralToken a0 with
           | some (ty, tx) =>
             if isIntTokT ty then wr (toString (parseIntPy tx + 1))
             else mbind (vc a0) (fun _ => wr " + 1")
           | none => mbind (vc a0) (fun _ => wr " + 1"))
          (fun _ => wr ", 1)"))))
  | _ => raise (mkErr .invalid_arguments "charAt() requires exactly 1 argument")

/-! ## Comprehension lowering -/

/-- Comprehension-depth limit (`MAX_COMPREHENSION_DEPTH`). -/
def maxComprehensionDepth : Nat := 3

/-- Push a loop-variable name (Python `set.add`: a no-op when present). -/
def addCompVar (v : String) : M Unit :=
  modifyS (fun s => if v ∈ s.compVars then s else { s with compVars := v :: s.compVars })

/-- Pop a loop-variable name (Python `set.discard`: removes the name
whether or not this macro added it). -/
def discardCompVar (v : String) : ConvState → ConvState :=
  fun s => { s with compVars := s.compVars.erase v }

/-- The `UNNEST(source) AS var` clause (`_write_unnest_source`). -/
def unnestSourceH (cfg : ConvCfg) (vc : PTree → M Unit) (source : PTree)
    (iterVar : String) : M Unit :=
  mbind (runTpl (cb1 (vc source)) cfg.dialect.write_unnest)
    (fun _ => wr (" AS " ++ iterVar))

/-- Handler `_visit_comp_all`. -/
def compAllH (cfg : ConvCfg) (vc : PTree → M Unit) (source : PTree)
    (args : List PTree) : M Unit :=
  match args with
  | [a0, pred] =>
    mbind (liftE (getIdentName a0)) (fun iterVar =>
      mbind (addCompVar iterVar) (fun _ =>
        tryFin
          (mbind (wr "NOT EXISTS (SELECT 1 FROM ") (fun _ =>
            mbind (unnestSourceH cfg vc source iterVar) (fun _ =>
              mbind (wr " WHERE NOT (") (fun _ =>
                mbind (vc pred) (fun _ => wr "))")))))
          (discardCompVar iterVar)))
  | _ => raise (mkErr .invalid_arguments "all() requires exactly 2 arguments")

/-- Handler `_visit_comp_exists`. -/
def compExistsH (cfg : ConvCfg) (vc : PTree → M Unit) (source : PTree)
    (args : List PTree) : M Unit :=
  match args with
  | [a0, pred] =>
    mbind (liftE (getIdentName a0)) (fun iterVar =>
      mbind (addCompVar iterVar) (fun _ =>
        tryFin
          (mbind (wr "EXISTS (SELECT 1 FROM ") (fun _ =>
            mbind (unnestSourceH cfg vc source iterVar) (fun _ =>
              mbind (wr " WHERE ") (fun _ =>
                mbind (vc pred) (fun _ => wr ")")))))
          (discardCompVar iterVar)))
  | _ => raise (mkErr .invalid_arguments "exists() requires exactly 2 arguments")

/-- Handler `_visit_comp_exists_one`. -/
def compExistsOneH (cfg : ConvCfg) (vc : PTree → M Unit) (source : PTree)
    (args : List PTree) : M Unit :=
  match args with
  | [a0, pred] =>
    mbind (liftE (getIdentName a0)) (fun iterVar =>
      mbind (addCompVar iterVar) (fun _ =>
        tryFin
          (mbind (wr "(SELECT COUNT(*) FROM ") (fun _ =>
            mbind (unnestSourceH cfg vc source iterVar) (fun _ =>
              mbind (wr " WHERE ") (fun _ =>
                mbind (vc pred) (fun _ => wr ") = 1")))))
          (discardCompVar iterVar)))
  | _ => raise (mkErr .invalid_arguments "exists_one() requires exactly 2 arguments")

/-- The `write_array_subquery_expr_close` call, absent from the Postgres
backend. -/
def exprCloseH (cfg : ConvCfg) : M Unit :=
  match cfg.dialect.write_array_subquery_expr_close with
  | Except.error e => raise e
  | Except.ok t => wr t

/-- Handler `_visit_comp_map` (2-argument `map`). -/
def compMapH (cfg : ConvCfg) (vc : PTree → M Unit) (source : PTree)
    (args : List PTree) : M Unit :=
  match args with
  | [a0, transform] =>
    mbind (liftE (getIdentName a0)) (fun iterVar =>
      mbind (addCompVar iterVar) (fun _ =>
        tryFin
          (mbind (wr cfg.dialect.write_array_subquery_open) (fun _ =>
            mbind (vc transform) (fun _ =>
              mbind (exprCloseH cfg) (fun _ =>
                mbind (wr " FROM ") (fun _ =>
                  mbind (unnestSourceH cfg vc source iterVar) (fun _ => wr ")"))))))
          (discardCompVar iterVar)))
  | _ => raise (mkErr .invalid_arguments "map() requires exactly 2 arguments")

/-- Handler `_visit_comp_map_filter` (3-argument `map`; the dispatcher
guarantees the arity, so no count check exists in the source). -/
def compMapFilterH (cfg : ConvCfg) (vc : PTree → M Unit) (source : PTree)
    (args : List PTree) : M Unit :=
  match args with
  | a0 :: filterPred :: transform :: _ =>
    mbind (liftE (getIdentName a0)) (fun iterVar =>
      mbind (addCompVar iterVar) (fun _ =>
        tryFin
          (mbind (wr cfg.dialect.write_array_subquery_open) (fun _ =>
            mbind (vc transform) (fun _ =>
              mbind (exprCloseH cfg) (fun _ =>
                mbind (wr " FROM ") (fun _ =>
                  mbind (unnestSourceH cfg vc source iterVar) (fun _ =>
                    mbind (wr " WHERE ") (fun _ =>
                      mbind (vc filterPred) (fun _ => wr ")"))))))))
          (discardCompVar iterVar)))
  | _ => raise pyIndexErr

/-- Handler `_visit_comp_filter` (note: the selected expression is the raw
iteration-variable text, not a visited child). -/
def compFilterH (cfg : ConvCfg) (vc : PTree → M Unit) (source : PTree)
    (args : List PTree) : M Unit :=
  match args with
  | [a0, pred] =>
    mbind (liftE (getIdentName a0)) (fun iterVar =>
      mbind (addCompVar iterVar) (fun _ =>
        tryFin
          (mbind (wr cfg.dialect.write_array_subquery_open) (fun _ =>
            mbind (wr iterVar) (fun _ =>
              mbind (exprCloseH cfg) (fun _ =>
                mbind (wr " FROM ") (fun _ =>
                  mbind (unnestSourceH cfg vc source iterVar) (fun _ =>
                    mbind (wr " WHERE ") (fun _ =>
                      mbind (vc pred) (fun _ => wr ")"))))))))
          (discardCompVar iterVar)))
  | _ => raise (mkErr .invalid_arguments "filter() requires exactly 2 arguments")

/-- Comprehension dispatcher (`Converter._visit_comprehension`): depth
check, depth increment with a `finally` decrement, and the per-macro
handlers. -/
def visitComprehensionH (cfg : ConvCfg) (vc : PTree → M Unit) (source : PTree)
    (macroName : String) (args : List PTree) : M Unit :=
  mbind getS (fun s =>
    if s.compDepth ≥ maxComprehensionDepth then
      raise (mkErr .max_comprehension_depth_exceeded "comprehension nesting depth exceeded"
        ("depth " ++ toString s.compDepth ++ " exceeds limit " ++
          toString maxComprehensionDepth))
    else
      mbind (modifyS (fun s' => { s' with compDepth := s'.compDepth + 1 })) (fun _ =>
        tryFin
          (if macroName = "all" then compAllH cfg vc source args
           else if macroName = "exists" then compExistsH cfg vc source args
           else if macroName = "exists_one" then compExistsOneH cfg vc source args
           else if macroName = "map" then
             (if args.length = 3 then compMapFilterH cfg vc source args
              else compMapH cfg vc source args)
           else if macroName = "filter" then compFilterH cfg vc source args
           else raise (mkErr .unsupported_expression
             ("unsupported comprehension: " ++ macroName)))
          (fun s' => { s' with compDepth := s'.compDepth - 1 })))

end Pycel

namespace Pycel

/-- Handler `member_index` (`a[i]` / `a["key"]`): string keys become dotted
access after field-name validation; constant integer indices are bounded
(negative, or above 2^31, fail) and rendered via the dialect's constant
indexing; anything else uses the dynamic-index syntax. -/
def memberIndexH (cfg : ConvCfg) (vc : PTree → M Unit) (cs : List PTree) : M Unit :=
  match cs with
  | obj :: idxExpr :: _ =>
    (match getLiteralToken idxExpr with
     | some (ty, tx) =>
       if isStrTokT ty then
         let rawKey := stripQuotes tx
         mbind (liftO (validate_field_name rawKey)) (fun _ =>
           mbind (vc obj) (fun _ => wr ("." ++ rawKey)))
       else if isIntTokT ty then
         let idx := parseIntPy tx
         if idx < 0 then
           raise (mkErr .invalid_arguments "negative array index not supported"
             ("array index " ++ toString idx ++ " is negative"))
         else if idx > 2147483648 then
           raise (mkErr .invalid_arguments "array index overflow"
             ("array index " ++ toString idx ++ " is too large"))
         else
           runTpl (cb1 (vc obj)) (cfg.dialect.write_list_index_const idx.toNat)
       else
         runTpl (cb2 (vc obj) (vc idxExpr)) cfg.dialect.write_list_index
     | none =>
       runTpl (cb2 (vc obj) (vc idxExpr)) cfg.dialect.write_list_index)
  | _ => raise pyIndexErr

/-- Handler `member_dot_arg` (method calls and comprehension macros), in
the source's dispatch order; branches no claim touches are `unmodeled`. -/
def memberDotArgH (cfg : ConvCfg) (vc : PTree → M Unit) (cs : List PTree) : M Unit :=
  match cs with
  | obj :: mtok :: rest =>
    let methodName := textOf mtok
    let args : List PTree := match rest with
      | .nd _ acs :: _ => acs
      | _ => []
    if methodName ∈ ["all", "exists", "exists_one", "map", "filter"] then
      visitComprehensionH cfg vc obj methodName args
    else if methodName = "contains" then visitContainsH cfg vc obj args
    else if methodName = "startsWith" then visitStartsWithH cfg vc obj args
    else if methodName = "endsWith" then visitEndsWithH cfg vc obj args
    else if methodName = "matches" then visitMatchesMethodH cfg vc obj args
    else if methodName = "size" then visitSizeH cfg vc obj
    else if methodName = "lowerAscii" then
      mbind (wr "LOWER(") (fun _ => mbind (vc obj) (fun _ => wr ")"))
    else if methodName = "upperAscii" then
      mbind (wr "UPPER(") (fun _ => mbind (vc obj) (fun _ => wr ")"))
    else if methodName = "trim" then
      mbind (wr "TRIM(") (fun _ => mbind (vc obj) (fun _ => wr ")"))
    else if methodName = "charAt" then visitCharAtH vc obj args
    else if methodName ∈ ["indexOf", "lastIndexOf", "substring", "replace"] then
      raise (unmodeledErr methodName)
    else if methodName = "reverse" then
      mbind (wr "REVERSE(") (fun _ => mbind (vc obj) (fun _ => wr ")"))
    else if methodName ∈ ["split", "join", "format"] then
      raise (unmodeledErr methodName)
    else if methodName ∈ ["getFullYear", "getMonth", "getDate", "getDayOfMonth",
        "getHours", "getMinutes", "getSeconds", "getMilliseconds",
        "getDayOfYear", "getDayOfWeek"] then
      raise (unmodeledErr methodName)
    else
      raise (mkErr .unsupported_expression "unsupported method call"
        ("unknown method: " ++ methodName))
  | _ => raise pyIndexErr

/-- Handler `member_object`. -/
def memberObjectH : M Unit :=
  raise (mkErr .unsupported_expression "object construction not supported in SQL conversion")

/-- Handler `primary`: passthrough only. -/
def primaryH (vc : PTree → M Unit) (cs : List PTree) : M Unit :=
  match cs with
  | [c] => vc c
  | _ => raise (mkErr .unsupported_expression "unsupported primary expression"
      ("primary has " ++ toString cs.length ++ " children"))

/-- Handler `ident`: bare identifiers are validated unless they are bound
comprehension variables, then written verbatim. -/
def identH (cs : List PTree) : M Unit :=
  match cs with
  | c :: _ =>
    let name := textOf c
    mbind getS (fun s =>
      mbind (if name ∈ s.compVars then mpure () else liftO (validate_field_name name))
        (fun _ => wr name))
  | [] => raise pyIndexErr

/-- Handler `ident_arg` (function calls): `size`, function-style `matches`
and the uppercase generic fallback are embedded; `has`, the type casts and
the temporal constructors are outside every claim's scope. -/
def identArgH (cfg : ConvCfg) (vc : PTree → M Unit) (cs : List PTree) : M Unit :=
  match cs with
  | fnameTok :: rest =>
    let funcName := textOf fnameTok
    let args : List PTree := match rest with
      | .nd _ acs :: _ => acs
      | _ => []
    if funcName = "has" then raise (unmodeledErr "has")
    else if funcName = "size" then
      (match args with
       | [a] => visitSizeH cfg vc a
       | _ => mpure ())
    else if funcName = "matches" ∧ args.length = 2 then
      (match args with
       | [t0, p0] => visitMatchesFuncH cfg vc t0 p0
       | _ => mpure ())
    else if funcName ∈ ["bool", "bytes", "double", "int", "uint", "string"] then
      raise (unmodeledErr funcName)
    else if funcName = "timestamp" then raise (unmodeledErr funcName)
    else if funcName = "duration" then raise (unmodeledErr funcName)
    else if funcName = "interval" then raise (unmodeledErr funcName)
    else if funcName ∈ ["date", "time", "datetime"] then raise (unmodeledErr funcName)
    else if funcName ∈ ["current_date", "current_datetime"] then
      raise (unmodeledErr funcName)
    else
      mbind (wr (upperS funcName ++ "(")) (fun _ =>
        mbind (msepSeq (args.map vc)) (fun _ => wr ")"))
  | [] => raise pyIndexErr

/-- Handler `dot_ident_arg`. -/
def dotIdentArgH (vc : PTree → M Unit) (cs : List PTree) : M Unit :=
  match cs with
  | fnameTok :: rest =>
    mbind (wr ("." ++ textOf fnameTok ++ "(")) (fun _ =>
      mbind
        (match rest with
         | .nd _ acs :: _ => msepSeq (acs.map vc)
         | _ => mpure ())
        (fun _ => wr ")"))
  | [] => raise pyIndexErr

/-- Handler `dot_ident`. -/
def dotIdentH (cs : List PTree) : M Unit :=
  match cs with
  | c :: _ => wr ("." ++ textOf c)
  | [] => raise pyIndexErr

/-- Handler `paren_expr`. -/
def parenExprH (vc : PTree → M Unit) (cs : List PTree) : M Unit :=
  match cs with
  | c :: _ => mbind (wr "(") (fun _ => mbind (vc c) (fun _ => wr ")"))
  | [] => raise pyIndexErr

/-- Handler `literal`: null and bool lower to syntax in both modes;
int/uint/float/string are emitted inline or parameterized; string values
are escape-processed and null-byte checked before either emission. -/
def literalH (cfg : ConvCfg) (cs : List PTree) : M Unit :=
  match cs with
  | [] => raise pyIndexErr
  | c :: _ =>
    match c with
    | .nd _ _ => raise (mkErr .unsupported_expression "unexpected literal structure")
    | .tk ty tx =>
      if isNullTokT ty then wr "NULL"
      else if isBoolTokT ty then
        wr (if lowerS tx = "true" then "TRUE" else "FALSE")
      else if isIntTokT ty then
        let v := parseIntPy tx
        if cfg.parameterize then
          mbind (addParam (Value.vInt v)) (fun idx =>
            wr (cfg.dialect.write_param_placeholder idx))
        else wr (toString v)
      else if isUintTokT ty then
        let v := parseIntPy (rstripU tx)
        if cfg.parameterize then
          mbind (addParam (Value.vInt v)) (fun idx =>
            wr (cfg.dialect.write_param_placeholder idx))
        else wr (toString v)
      else if isFloatTokT ty then
        if cfg.parameterize then
          mbind (addParam (Value.vFloat tx)) (fun idx =>
            wr (cfg.dialect.write_param_placeholder idx))
        else wr tx
      else if isStrTokT ty then
        let raw := stripQuotes tx
        let raw := if ¬ rawPrefixed tx then processEscapes raw else raw
        mbind (liftO (validate_no_null_bytes raw)) (fun _ =>
          if cfg.parameterize then
            mbind (addParam (Value.vStr raw)) (fun idx =>
              wr (cfg.dialect.write_param_placeholder idx))
          else wr (cfg.dialect.write_string_literal raw))
      else if isBytesTokT ty then raise (unmodeledErr "bytes literal")
      else raise (mkErr .unsupported_expression "unsupported literal type"
        ("unknown token type: " ++ ty))

/-- Handler `list_lit`. -/
def listLitH (cfg : ConvCfg) (vc : PTree → M Unit) (cs : List PTree) : M Unit :=
  mbind (wr cfg.dialect.write_array_literal_open) (fun _ =>
    mbind
      (match cs with
       | .nd "exprlist" ecs :: _ => msepSeq (ecs.map vc)
       | _ => mpure ())
      (fun _ => wr cfg.dialect.write_array_literal_close))

/-- The key/value stride-2 loop of `map_lit`/`mapinits`/`fieldinits`: only
the values are visited; an odd-length list is a Python IndexError at the
final step. -/
def mapPairsH (vc : PTree → M Unit) (first : Bool) : List PTree → M Unit
  | [] => mpure ()
  | [_] => raise pyIndexErr
  | _ :: v :: rest =>
    mbind (if first then mpure () else wr ", ") (fun _ =>
      mbind (vc v) (fun _ => mapPairsH vc false rest))

/-- Handler `map_lit`: the struct constructor around the values only. -/
def mapLitH (cfg : ConvCfg) (vc : PTree → M Unit) (cs : List PTree) : M Unit :=
  mbind (wr cfg.dialect.write_struct_open) (fun _ =>
    mbind
      (match cs with
       | .nd "mapinits" mcs :: _ => mapPairsH vc true mcs
       | _ => mpure ())
      (fun _ => wr cfg.dialect.write_struct_close))

/-- Handler `exprlist`. -/
def exprlistH (vc : PTree → M Unit) (cs : List PTree) : M Unit :=
  msepSeq (cs.map vc)

end Pycel

namespace Pycel

/-- The fueled visitor (`Converter.visit` with the lark Interpreter's
name-based dispatch): a bare token writes its text; a node dispatches on
its rule name; rule names outside the converter's handler set are not
modelled (lark's default child-visit fallback is unreachable on the CEL
grammar).  Fuel only bounds the recursion depth of the embedding itself;
the entry points supply more fuel than any tree path can consume, so the
`out_of_fuel` branch is unreachable from them. -/
def visitF (cfg : ConvCfg) : Nat → PTree → M Unit
  | 0, _ => raise (mkErr .out_of_fuel "embedding fuel exhausted")
  | fuel + 1, t =>
    let vc : PTree → M Unit := visitChildAux cfg (visitF cfg fuel)
    match t with
    | .tk _ tx => wr tx
    | .nd data cs =>
      if data = "expr" then exprH vc cs
      else if data = "conditionalor" then conditionalorH vc cs
      else if data = "conditionaland" then conditionalandH vc cs
      else if data = "relation" then relationH cfg vc cs
      else if data = "relation_eq" ∨ data = "relation_ne" ∨ data = "relation_lt" ∨
          data = "relation_le" ∨ data = "relation_gt" ∨ data = "relation_ge" ∨
          data = "relation_in" then prefixPassH vc cs
      else if data = "addition" then additionH cfg vc cs
      else if data = "addition_add" ∨ data = "addition_sub" then prefixPassH vc cs
      else if data = "multiplication" then multiplicationH vc cs
      else if data = "multiplication_mul" ∨ data = "multiplication_div" ∨
          data = "multiplication_mod" then prefixPassH vc cs
      else if data = "unary" then unaryH vc cs
      else if data = "unary_not" ∨ data = "unary_neg" then mpure ()
      else if data = "member" then memberH vc cs
      else if data = "member_dot" then memberDotH cfg vc cs
      else if data = "member_dot_arg" then memberDotArgH cfg vc cs
      else if data = "member_index" then memberIndexH cfg vc cs
      else if data = "member_object" then memberObjectH
      else if data = "primary" then primaryH vc cs
      else if data = "ident" then identH cs
      else if data = "ident_arg" then identArgH cfg vc cs
      else if data = "dot_ident_arg" then dotIdentArgH vc cs
      else if data = "dot_ident" then dotIdentH cs
      else if data = "paren_expr" then parenExprH vc cs
      else if data = "literal" then literalH cfg cs
      else if data = "list_lit" then listLitH cfg vc cs
      else if data = "map_lit" then mapLitH cfg vc cs
      else if data = "exprlist" then exprlistH vc cs
      else if data = "mapinits" ∨ data = "fieldinits" then mapPairsH vc true cs
      else raise (unmodeledErr ("unknown rule: " ++ data))

/-- Child visit at a given fuel (the `vc` knot of `visitF`, exposed for
statements). -/
def visitChild (cfg : ConvCfg) (fuel : Nat) : PTree → M Unit :=
  visitChildAux cfg (visitF cfg fuel)

/-! ## Entry points (`__init__.py`; the parser is external, so they take
the parse tree) -/

/-- Fuel that no visit path can exhaust: each nested visit consumes one
unit and strictly descends the tree. -/
def fuelFor (t : PTree) : Nat := tsize t + 1

/-- The `convert` entry: constructor check, then one visit of the tree
from the fresh state; the accumulated buffer is the SQL. -/
def convertTree (d : SqlDialect) (schemas : Schemas) (validateSchema : Bool)
    (t : PTree) : Except Err String :=
  match mkConverter { dialect := d, schemas := schemas, validateSchema := validateSchema } with
  | Except.error e => Except.error e
  | Except.ok cfg =>
    match visitF cfg (fuelFor t) t initState with
    | (Except.ok _, s) => Except.ok s.buf
    | (Except.error e, _) => Except.error e

/-- The `convert_parameterized` entry: same visit with
`parameterize=True`; returns the SQL with placeholders and the ordered
parameter list. -/
def convertParamTree (d : SqlDialect) (schemas : Schemas) (validateSchema : Bool)
    (t : PTree) : Except Err (String × List Value) :=
  match mkConverter { dialect := d, schemas := schemas,
                      validateSchema := validateSchema, parameterize := true } with
  | Except.error e => Except.error e
  | Except.ok cfg =>
    match visitF cfg (fuelFor t) t initState with
    | (Except.ok _, s) => Except.ok (s.buf, s.params)
    | (Except.error e, _) => Except.error e

/-- Error kind of a failed computation (`None` when it succeeded). -/
def errKindOf {α : Type} : Except Err α → Option ErrKind
  | Except.ok _ => none
  | Except.error e => some e.kind

end Pycel

namespace Pycel

/-! ## Index pattern analyzer (`_analysis.py`) -/

/-- Pattern priority (`_pattern_priority`): higher replaces lower for the
same column. -/
def patternPriority : PatternType → Nat
  | .comparison => 1
  | .array_membership => 2
  | .regex_match => 3
  | .json_access => 3
  | .array_comprehension => 3
  | .json_array_comprehension => 3

/-- Recommendation priority (`_index_priority`). -/
def indexPriority : IndexType → Nat
  | .btree => 1
  | .art => 1
  | .clustering => 1
  | .gin => 3
  | .gist => 3
  | .search_index => 3
  | .fulltext => 2

/-- Insertion-ordered dictionary keyed by column, as a Python dict. -/
def PatDict : Type := List (String × IndexPattern)

/-- Update in place (keeping insertion order) or append. -/
def dictSetPat (l : PatDict) (k : String) (v : IndexPattern) : PatDict :=
  match l with
  | [] => [(k, v)]
  | (k0, v0) :: rest =>
    if k0 = k then (k0, v) :: rest else (k0, v0) :: dictSetPat rest k v

/-- Lookup. -/
def dictGetPat (l : PatDict) (k : String) : Option IndexPattern :=
  match l.find? (fun p => p.1 = k) with
  | some p => some p.2
  | none => none

/-- Pattern accumulation (`IndexAnalyzer._add_pattern`): a new column is
added; a known column is replaced only by a strictly higher-priority
pattern. -/
def addPattern (acc : PatDict) (p : IndexPattern) : PatDict :=
  match dictGetPat acc p.column with
  | none => dictSetPat acc p.column p
  | some existing =>
    if patternPriority p.pattern > patternPriority existing.pattern then
      dictSetPat acc p.column p
    else acc

/-- Column extraction (`IndexAnalyzer._extract_column_name`). -/
def extractColumnName : PTree → Option String
  | .tk ty tx => if ty = "IDENT" then some tx else none
  | .nd d cs =>
    if d = "ident" then
      match cs with
      | c :: _ => some (textOf c)
      | [] => none
    else if d = "member_dot" then
      match cs with
      | _ :: ntok :: _ => some (textOf ntok)
      | _ => none
    else
      match cs with
      | [c] => extractColumnName c
      | _ => none

/-- Table extraction (`IndexAnalyzer._extract_table_name`): the root
identifier or the empty string. -/
def extractTableName (t : PTree) : String := (getRootIdent t).getD ""

/-- JSON-field test of the analyzer (same as the converter's). -/
def anaIsFieldJson (schemas : Schemas) (tbl f : String) : Bool :=
  match schemasGet schemas tbl with
  | none => false
  | some sch => match sch.find_field f with
    | some fs => fs.is_json || fs.is_jsonb
    | none => false

/-- Fueled analyzer walk (`IndexAnalyzer.visit`): detection at
relation/`matches`/comprehension/JSON-access nodes, plain descent
elsewhere; leaf handlers pass. -/
def anaVisit (schemas : Schemas) : Nat → PTree → PatDict → PatDict
  | 0, _, acc => acc
  | fuel + 1, t, acc =>
    match t with
    | .tk _ _ => acc
    | .nd data cs =>
      let visitChildren : PatDict → PatDict := fun acc0 =>
        cs.foldl (fun a c =>
          match c with
          | .nd d2 cs2 => anaVisit schemas fuel (.nd d2 cs2) a
          | .tk _ _ => a) acc0
      if data = "relation" then
        let acc :=
          match cs with
          | [opNode, rhs] =>
            (match opNode with
             | .nd opName opCs =>
               let lhs? : Option PTree := opCs.head?
               let acc :=
                 match lhs? with
                 | some lhs =>
                   (match extractColumnName lhs with
                    | some col => addPattern acc
                        { column := col, pattern := .comparison,
                          table_hint := extractTableName lhs }
                    | none => acc)
                 | none => acc
               let acc :=
                 match extractColumnName rhs with
                 | some col => addPattern acc
                     { column := col, pattern := .comparison,
                       table_hint := extractTableName rhs }
                 | none => acc
               if opName = "relation_in" then
                 match lhs? with
                 | some lhs =>
                   (match extractColumnName lhs with
                    | some col => addPattern acc
                        { column := col, pattern := .array_membership,
                          table_hint := extractTableName lhs }
                    | none => acc)
                 | none => acc
               else acc
             | .tk _ _ => acc)
          | _ => acc
        visitChildren acc
      else if data = "member_dot" then
        let acc :=
          match cs with
          | obj :: ntok :: _ =>
            (match getRootIdent obj with
             | some tbl =>
               let ff := getFirstField obj (textOf ntok)
               if anaIsFieldJson schemas tbl ff then
                 addPattern acc { column := ff, pattern := .json_access, table_hint := tbl }
               else acc
             | none => acc)
          | _ => acc
        visitChildren acc
      else if data = "member_dot_arg" then
        let acc :=
          match cs with
          | obj :: mtok :: _ =>
            let methodName := textOf mtok
            let acc :=
              if methodName = "matches" then
                match extractColumnName obj with
                | some col => addPattern acc
                    { column := col, pattern := .regex_match,
                      table_hint := extractTableName obj }
                | none => acc
              else acc
            if methodName ∈ ["all", "exists", "exists_one", "map", "filter"] then
              match extractColumnName obj with
              | some col =>
                let root := getRootIdent obj
                let ff := match root with
                  | some _ => getFirstField obj col
                  | none => col
                let pk : PatternType :=
                  match root with
                  | some r => if anaIsFieldJson schemas r ff then .json_array_comprehension
                      else .array_comprehension
                  | none => .array_comprehension
                addPattern acc
                  { column := ff, pattern := pk, table_hint := extractTableName obj }
              | none => acc
            else acc
          | _ => acc
        visitChildren acc
      else if data = "ident_arg" then
        let acc :=
          match cs with
          | fnameTok :: rest =>
            let args : List PTree := match rest with
              | .nd _ acs :: _ => acs
              | _ => []
            if textOf fnameTok = "matches" ∧ args.length ≥ 1 then
              match args with
              | a0 :: _ =>
                (match extractColumnName a0 with
                 | some col => addPattern acc
                     { column := col, pattern := .regex_match,
                       table_hint := extractTableName a0 }
                 | none => acc)
              | [] => acc
            else acc
          | [] => acc
        visitChildren acc
      else if data = "literal" ∨ data = "ident" ∨ data = "dot_ident" ∨
          data = "member_object" ∨ data = "unary_not" ∨ data = "unary_neg" then
        acc
      else
        visitChildren acc

/-- Accumulated dictionary for recommendation deduplication. -/
def RecDict : Type := List (String × IndexRecommendation)

/-- Update in place or append for recommendations. -/
def dictSetRec (l : RecDict) (k : String) (v : IndexRecommendation) : RecDict :=
  match l with
  | [] => [(k, v)]
  | (k0, v0) :: rest =>
    if k0 = k then (k0, v) :: rest else (k0, v0) :: dictSetRec rest k v

/-- The recommendation fold of `analyze_patterns`: ask the advisor for
each detected pattern and keep, per column, the strictly
highest-priority recommendation (first wins ties). -/
def recFold (advisor : Advisor) (ps : List IndexPattern) : RecDict :=
  ps.foldl
    (fun acc p =>
      match advisor p with
      | none => acc
      | some rec =>
        match (acc.find? (fun q => q.1 = rec.column)) with
        | none => dictSetRec acc rec.column rec
        | some existing =>
          if indexPriority rec.index_type > indexPriority existing.2.index_type then
            dictSetRec acc rec.column rec
          else acc)
    []

/-- Analyze a parse tree for index recommendations
(`analyze_patterns`). -/
def analyze_patterns (t : PTree) (advisor : Advisor) (schemas : Schemas) :
    List IndexRecommendation :=
  let pats := anaVisit schemas (fuelFor t) t []
  (recFold advisor (pats.map (fun p => p.2))).map (fun p => p.2)

/-- The `analyze` entry (`__init__.py`): pass 1 converts; pass 2 asks
`get_index_advisor` and, only when an advisor exists, walks the tree
again for recommendations. -/
def analyzeTree (d : SqlDialect) (schemas : Schemas) (validateSchema : Bool)
    (t : PTree) : Except Err (String × List IndexRecommendation) :=
  match convertTree d schemas validateSchema t with
  | Except.error e => Except.error e
  | Except.ok sql =>
    match get_index_advisor d with
    | none => Except.ok (sql, [])
    | some adv => Except.ok (sql, analyze_patterns t adv schemas)

end Pycel

namespace Pycel

/-! ## Decidability of run results and shared concrete fixtures -/

instance {e a : Type} [DecidableEq e] [DecidableEq a] : DecidableEq (Except e a)
  | .ok x, .ok y =>
    if h : x = y then isTrue (by rw [h])
    else isFalse (by intro hc; cases hc; exact h rfl)
  | .ok _, .error _ => isFalse (by intro hc; cases hc)
  | .error _, .ok _ => isFalse (by intro hc; cases hc)
  | .error x, .error y =>
    if h : x = y then isTrue (by rw [h])
    else isFalse (by intro hc; cases hc; exact h rfl)

/-- Bare identifier tree (`ident` node over an IDENT token), as the parser
produces for a variable reference. -/
def identT (n : String) : PTree := .nd "ident" [.tk "IDENT" n]

/-- Integer literal tree. -/
def intL (tx : String) : PTree := .nd "literal" [.tk "INT_LIT" tx]

/-- String literal tree; the token text carries the surrounding quotes, as
in the lexer's output. -/
def strL (raw : String) : PTree := .nd "literal" [.tk "STRING_LIT" ("\"" ++ raw ++ "\"")]

/-- Null literal tree. -/
def nullL : PTree := .nd "literal" [.tk "NULL_LIT" "null"]

/-- Boolean literal tree. -/
def boolL (b : String) : PTree := .nd "literal" [.tk "BOOL_LIT" b]

/-- Relation tree: the operator prefix node holds the left operand, the
right operand is the second child (the lark shape `relation(relation_eq(l),
r)` the converter destructures). -/
def relT (op : String) (l r : PTree) : PTree := .nd "relation" [.nd op [l], r]

/-- Field access tree (`member_dot`). -/
def mdot (o : PTree) (f : String) : PTree := .nd "member_dot" [o, .tk "IDENT" f]

/-- List literal tree. -/
def listT (xs : List PTree) : PTree := .nd "list_lit" [.nd "exprlist" xs]

/-- Method-call tree (`member_dot_arg`). -/
def mcall (o : PTree) (m : String) (args : List PTree) : PTree :=
  .nd "member_dot_arg" [o, .tk "IDENT" m, .nd "exprlist" args]

/-- Function-call tree (`ident_arg`). -/
def fcall (f : String) (args : List PTree) : PTree :=
  .nd "ident_arg" [.tk "IDENT" f, .nd "exprlist" args]

/-- Method-form `matches` tree, `target.matches("pattern")`; the pattern
text carries its quotes. -/
def matchesM (target : String) (pat : String) : PTree := mcall (identT target) "matches" [strL pat]

/-- Function-form `matches(target, "pattern")` tree. -/
def matchesF (target : String) (pat : String) : PTree :=
  fcall "matches" [identT target, strL pat]

/-- A schemas mapping with one JSONB column `data` on table `t`. -/
def tJsonSchemas : Schemas := [("t", ⟨[{ name := "data", is_json := true, is_jsonb := true }]⟩)]

/-- The comparison `t.data.num > 5` (a JSON text extraction against a
numeric literal). -/
def tJsonNumCmp : PTree := relT "relation_gt" (mdot (mdot (identT "t") "data") "num") (intL "5")

/-- The comparison `t.data.role == "admin"` (a JSON text extraction
against a textual literal). -/
def tJsonStrCmp : PTree :=
  relT "relation_eq" (mdot (mdot (identT "t") "data") "role") (strL "admin")

/-- Default-configuration (PostgreSQL) converter configuration. -/
def pgCfgD : ConvCfg := { dialect := postgresDialect }

/-- SQLite converter configuration over the JSON schemas. -/
def sqliteCfgJson : ConvCfg := { dialect := sqliteDialect, schemas := tJsonSchemas }

end Pycel

namespace Pycel

/-! ## Claim theorems -/

set_option maxHeartbeats 1000000

/-- C1: for every dialect exposing no index advisor, `analyze` returns the
SQL conversion paired with an empty recommendation list and raises
nothing beyond what the conversion itself would: the advisor lookup of
pass 2 yields `None` and the recommendation walk is skipped entirely
(index analysis is strictly additive and optional). -/
theorem analyze_without_advisor_returns_empty_recommendations
    (d : SqlDialect) (schemas : Schemas) (validateSchema : Bool) (t : PTree) (sql : String)
    (hadv : get_index_advisor d = none)
    (hconv : convertTree d schemas validateSchema t = Except.ok sql) :
    analyzeTree d schemas validateSchema t = Except.ok (sql, []) := by
  unfold analyzeTree
  rw [hconv, hadv]

/-- C1 witness: the SQLite dialect has no advisor; `analyze` of `age > 18`
on it yields the SQL and no recommendations. -/
theorem analyze_without_advisor_returns_empty_recommendations_witness :
    analyzeTree sqliteDialect [] false (relT "relation_gt" (identT "age") (intL "18")) =
      Except.ok ("age > 18", []) :=
  analyze_without_advisor_returns_empty_recommendations sqliteDialect [] false
    (relT "relation_gt" (identT "age") (intL "18")) "age > 18" rfl (by decide)

/-- C2 evidence, PostgreSQL: the ReDoS pattern is rejected. -/
theorem c2aux_pg : errKindOf (convertTree postgresDialect [] false (matchesM "name" "(a+)+")) =
    some ErrKind.invalid_regex_pattern := by decide

/-- C2 evidence, MySQL. -/
theorem c2aux_mysql : errKindOf (convertTree mysqlDialect [] false (matchesM "name" "(a+)+")) =
    some ErrKind.invalid_regex_pattern := by decide

/-- C2 evidence, DuckDB. -/
theorem c2aux_duckdb : errKindOf (convertTree duckdbDialect [] false (matchesM "name" "(a+)+")) =
    some ErrKind.invalid_regex_pattern := by decide

/-- C2 evidence, BigQuery. -/
theorem c2aux_bigquery : errKindOf (convertTree bigqueryDialect [] false (matchesM "name" "(a+)+")) =
    some ErrKind.invalid_regex_pattern := by decide

/-- C2: the ReDoS pattern `(a+)+` is rejected with the
invalid-regex-pattern kind by `matches()` on every regex-supporting
dialect (PostgreSQL, MySQL, DuckDB, BigQuery), and on the no-regex SQLite
dialect every `matches()` call carrying a string-literal pattern — method
or function form, whatever the pattern's content — fails with the
unsupported-dialect-feature kind, because `SQLiteDialect.convert_regex`
raises before the pattern is even inspected. -/
theorem matches_redos_rejection_and_sqlite_unsupported :
    errKindOf (convertTree postgresDialect [] false (matchesM "name" "(a+)+")) =
        some ErrKind.invalid_regex_pattern ∧
    errKindOf (convertTree mysqlDialect [] false (matchesM "name" "(a+)+")) =
        some ErrKind.invalid_regex_pattern ∧
    errKindOf (convertTree duckdbDialect [] false (matchesM "name" "(a+)+")) =
        some ErrKind.invalid_regex_pattern ∧
    errKindOf (convertTree bigqueryDialect [] false (matchesM "name" "(a+)+")) =
        some ErrKind.invalid_regex_pattern ∧
    (∀ p : String, errKindOf (convertTree sqliteDialect [] false (matchesM "name" p)) =
        some ErrKind.unsupported_dialect_feature) ∧
    (∀ p : String, errKindOf (convertTree sqliteDialect [] false (matchesF "name" p)) =
        some ErrKind.unsupported_dialect_feature) :=
  ⟨c2aux_pg, c2aux_mysql, c2aux_duckdb, c2aux_bigquery, fun _ => rfl, fun _ => rfl⟩

/-- C4 evidence, PostgreSQL: the numeric-cast call crashes. -/
theorem c4aux_pg : errKindOf (convertTree postgresDialect tJsonSchemas false tJsonNumCmp) =
    some ErrKind.python_type_error := by decide

/-- C4 evidence, SQLite: cast around the JSON side. -/
theorem c4aux_sqlite : convertTree sqliteDialect tJsonSchemas false tJsonNumCmp =
    Except.ok "(json_extract(t.data, '$.num')) + 0 > 5" := by decide

/-- C4 evidence, DuckDB. -/
theorem c4aux_duckdb : convertTree duckdbDialect tJsonSchemas false tJsonNumCmp =
    Except.ok "(t.data->>'num')::DOUBLE > 5" := by decide

/-- C4 evidence, MySQL. -/
theorem c4aux_mysql : convertTree mysqlDialect tJsonSchemas false tJsonNumCmp =
    Except.ok "(t.data->>'$.num') + 0 > 5" := by decide

/-- C4 evidence, BigQuery. -/
theorem c4aux_bigquery : convertTree bigqueryDialect tJsonSchemas false tJsonNumCmp =
    Except.ok "CAST((JSON_VALUE(t.data, '$.num')) AS FLOAT64) > 5" := by decide

/-- C4 evidence, reversed operand order (stated symbolically in the
child-visit action `vc`): the numeric-literal side is visited plainly and
the dialect numeric cast wraps the JSON (right) side only. -/
theorem c4aux_rev_eq (vc : PTree → M Unit) :
    relationGenericH sqliteCfgJson vc "relation_lt" (intL "5")
        (mdot (mdot (identT "t") "data") "num") =
      mbind (vc (intL "5")) (fun _ => mbind (wr " < ")
        (fun _ => castNumericCall sqliteCfgJson vc
          (mdot (mdot (identT "t") "data") "num"))) := rfl

/-- C4 evidence, textual other side: no cast, PostgreSQL succeeds. -/
theorem c4aux_pg_text : convertTree postgresDialect tJsonSchemas false tJsonStrCmp =
    Except.ok "t.data->>'role' = 'admin'" := by decide

/-- C4 evidence, textual other side on SQLite: no cast either. -/
theorem c4aux_sqlite_text : convertTree sqliteDialect tJsonSchemas false tJsonStrCmp =
    Except.ok "json_extract(t.data, '$.role') = 'admin'" := by decide

/-- C4 (the code diverges from the claim): comparing a JSON text
extraction with a numeric literal crashes on the default PostgreSQL
dialect with a Python TypeError, because
`PostgresDialect.write_cast_to_numeric` kept the callback-less signature
while the converter passes the operand callback; on the four other
dialects the comparison succeeds with the dialect's numeric cast wrapped
around the JSON side only (either operand order), and a textual literal
on the other side is compared without any cast (succeeding even on
PostgreSQL). -/
theorem json_numeric_comparison_cast_behavior :
    errKindOf (convertTree postgresDialect tJsonSchemas false tJsonNumCmp) =
        some ErrKind.python_type_error ∧
    convertTree sqliteDialect tJsonSchemas false tJsonNumCmp =
        Except.ok "(json_extract(t.data, '$.num')) + 0 > 5" ∧
    convertTree duckdbDialect tJsonSchemas false tJsonNumCmp =
        Except.ok "(t.data->>'num')::DOUBLE > 5" ∧
    convertTree mysqlDialect tJsonSchemas false tJsonNumCmp =
        Except.ok "(t.data->>'$.num') + 0 > 5" ∧
    convertTree bigqueryDialect tJsonSchemas false tJsonNumCmp =
        Except.ok "CAST((JSON_VALUE(t.data, '$.num')) AS FLOAT64) > 5" ∧
    (∀ vc : PTree → M Unit,
      relationGenericH sqliteCfgJson vc "relation_lt" (intL "5")
          (mdot (mdot (identT "t") "data") "num") =
        mbind (vc (intL "5")) (fun _ => mbind (wr " < ")
          (fun _ => castNumericCall sqliteCfgJson vc
            (mdot (mdot (identT "t") "data") "num")))) ∧
    convertTree postgresDialect tJsonSchemas false tJsonStrCmp =
        Except.ok "t.data->>'role' = 'admin'" ∧
    convertTree sqliteDialect tJsonSchemas false tJsonStrCmp =
        Except.ok "json_extract(t.data, '$.role') = 'admin'" :=
  ⟨c4aux_pg, c4aux_sqlite, c4aux_duckdb, c4aux_mysql, c4aux_bigquery,
   c4aux_rev_eq, c4aux_pg_text, c4aux_sqlite_text⟩

set_option maxHeartbeats 1000000

/-- C3 evidence: `x == null` lowers to `x IS NULL`. -/
theorem c3aux_null_rhs_eq (cfg : ConvCfg) (fuel : Nat) (lhs : PTree) :
    visitF cfg (fuel + 1) (relT "relation_eq" lhs nullL) =
      mbind (visitChild cfg fuel lhs) (fun _ => wr " IS NULL") := rfl

/-- C3 evidence: `x != null` lowers to `x IS NOT NULL`. -/
theorem c3aux_null_rhs_ne (cfg : ConvCfg) (fuel : Nat) (lhs : PTree) :
    visitF cfg (fuel + 1) (relT "relation_ne" lhs nullL) =
      mbind (visitChild cfg fuel lhs) (fun _ => wr " IS NOT NULL") := rfl

/-- C3 evidence: `null == x` also lowers to `x IS NULL` when `x` itself is
not the null literal. -/
theorem c3aux_null_lhs_eq (cfg : ConvCfg) (fuel : Nat) (rhs : PTree)
    (h : litIs (getLiteralToken rhs) isNullTokT = false) :
    visitF cfg (fuel + 1) (relT "relation_eq" nullL rhs) =
      mbind (visitChild cfg fuel rhs) (fun _ => wr " IS NULL") := by
  have e : visitF cfg (fuel + 1) (relT "relation_eq" nullL rhs) =
      (if litIs (getLiteralToken rhs) isNullTokT = true then
        mbind (visitChild cfg fuel nullL) (fun _ => wr " IS NULL")
      else
        mbind (visitChild cfg fuel rhs) (fun _ => wr " IS NULL")) := rfl
  rw [e]
  simp [h]

/-- C3 evidence: `x == true` lowers to `x IS TRUE` (for `x` not itself the
null literal, which the source checks first). -/
theorem c3aux_bool_rhs_eq_t (cfg : ConvCfg) (fuel : Nat) (lhs : PTree)
    (h : litIs (getLiteralToken lhs) isNullTokT = false) :
    visitF cfg (fuel + 1) (relT "relation_eq" lhs (boolL "true")) =
      mbind (visitChild cfg fuel lhs) (fun _ => wr " IS TRUE") := by
  have e : visitF cfg (fuel + 1) (relT "relation_eq" lhs (boolL "true")) =
      (if litIs (getLiteralToken lhs) isNullTokT = true then
        mbind (visitChild cfg fuel (boolL "true")) (fun _ => wr " IS NULL")
      else
        mbind (visitChild cfg fuel lhs) (fun _ => wr " IS TRUE")) := rfl
  rw [e]
  simp [h]

/-- C3 evidence: `x != true` lowers to `x IS NOT TRUE`. -/
theorem c3aux_bool_rhs_ne_t (cfg : ConvCfg) (fuel : Nat) (lhs : PTree)
    (h : litIs (getLiteralToken lhs) isNullTokT = false) :
    visitF cfg (fuel + 1) (relT "relation_ne" lhs (boolL "true")) =
      mbind (visitChild cfg fuel lhs) (fun _ => wr " IS NOT TRUE") := by
  have e : visitF cfg (fuel + 1) (relT "relation_ne" lhs (boolL "true")) =
      (if litIs (getLiteralToken lhs) isNullTokT = true then
        mbind (visitChild cfg fuel (boolL "true")) (fun _ => wr " IS NOT NULL")
      else
        mbind (visitChild cfg fuel lhs) (fun _ => wr " IS NOT TRUE")) := rfl
  rw [e]
  simp [h]

/-- C3 evidence: `x == false` lowers to `x IS FALSE`. -/
theorem c3aux_bool_rhs_eq_f (cfg : ConvCfg) (fuel : Nat) (lhs : PTree)
    (h : litIs (getLiteralToken lhs) isNullTokT = false) :
    visitF cfg (fuel + 1) (relT "relation_eq" lhs (boolL "false")) =
      mbind (visitChild cfg fuel lhs) (fun _ => wr " IS FALSE") := by
  have e : visitF cfg (fuel + 1) (relT "relation_eq" lhs (boolL "false")) =
      (if litIs (getLiteralToken lhs) isNullTokT = true then
        mbind (visitChild cfg fuel (boolL "false")) (fun _ => wr " IS NULL")
      else
        mbind (visitChild cfg fuel lhs) (fun _ => wr " IS FALSE")) := rfl
  rw [e]
  simp [h]

/-- C3 evidence: `true == x` also lowers to `x IS TRUE` when `x` is
neither a null nor a boolean literal. -/
theorem c3aux_bool_lhs_eq_t (cfg : ConvCfg) (fuel : Nat) (rhs : PTree)
    (h1 : litIs (getLiteralToken rhs) isNullTokT = false)
    (h2 : litIs (getLiteralToken rhs) isBoolTokT = false) :
    visitF cfg (fuel + 1) (relT "relation_eq" (boolL "true") rhs) =
      mbind (visitChild cfg fuel rhs) (fun _ => wr " IS TRUE") := by
  have e : visitF cfg (fuel + 1) (relT "relation_eq" (boolL "true") rhs) =
      (if litIs (getLiteralToken rhs) isNullTokT = true then
        mbind (visitChild cfg fuel (boolL "true")) (fun _ => wr " IS NULL")
      else if litIs (getLiteralToken rhs) isBoolTokT = true then
        mbind (visitChild cfg fuel (boolL "true")) (fun _ =>
          wr (boolIsSuffix "relation_eq"
            (lowerS (litText (getLiteralToken rhs)) = "true")))
      else
        mbind (visitChild cfg fuel rhs) (fun _ => wr " IS TRUE")) := rfl
  rw [e]
  simp [h1, h2]

/-- C3 evidence: in parameterized mode a null comparison appends no
parameter. -/
theorem c3aux_param_null : convertParamTree postgresDialect [] false
    (relT "relation_eq" (identT "a") nullL) = Except.ok ("a IS NULL", []) := by decide

/-- C3 evidence: in parameterized mode a boolean comparison appends no
parameter. -/
theorem c3aux_param_bool : convertParamTree postgresDialect [] false
    (relT "relation_ne" (identT "b") (boolL "true")) =
      Except.ok ("b IS NOT TRUE", []) := by decide

/-- C3 (confirmed): an equality/inequality comparison against the null
literal lowers to `IS [NOT] NULL` and against a boolean literal to
`IS [NOT] TRUE/FALSE` — on either operand side, with the source's
rhs-before-lhs literal checks reflected in the side conditions — so no
`=`/`!=` against the literal is ever emitted, and the parameterized mode
appends no parameter for these literals. -/
theorem null_bool_comparisons_lower_to_is_forms :
    (∀ (cfg : ConvCfg) (fuel : Nat) (lhs : PTree),
      visitF cfg (fuel + 1) (relT "relation_eq" lhs nullL) =
        mbind (visitChild cfg fuel lhs) (fun _ => wr " IS NULL")) ∧
    (∀ (cfg : ConvCfg) (fuel : Nat) (lhs : PTree),
      visitF cfg (fuel + 1) (relT "relation_ne" lhs nullL) =
        mbind (visitChild cfg fuel lhs) (fun _ => wr " IS NOT NULL")) ∧
    (∀ (cfg : ConvCfg) (fuel : Nat) (rhs : PTree),
      litIs (getLiteralToken rhs) isNullTokT = false →
      visitF cfg (fuel + 1) (relT "relation_eq" nullL rhs) =
        mbind (visitChild cfg fuel rhs) (fun _ => wr " IS NULL")) ∧
    (∀ (cfg : ConvCfg) (fuel : Nat) (lhs : PTree),
      litIs (getLiteralToken lhs) isNullTokT = false →
      visitF cfg (fuel + 1) (relT "relation_eq" lhs (boolL "true")) =
        mbind (visitChild cfg fuel lhs) (fun _ => wr " IS TRUE")) ∧
    (∀ (cfg : ConvCfg) (fuel : Nat) (lhs : PTree),
      litIs (getLiteralToken lhs) isNullTokT = false →
      visitF cfg (fuel + 1) (relT "relation_ne" lhs (boolL "true")) =
        mbind (visitChild cfg fuel lhs) (fun _ => wr " IS NOT TRUE")) ∧
    (∀ (cfg : ConvCfg) (fuel : Nat) (lhs : PTree),
      litIs (getLiteralToken lhs) isNullTokT = false →
      visitF cfg (fuel + 1) (relT "relation_eq" lhs (boolL "false")) =
        mbind (visitChild cfg fuel lhs) (fun _ => wr " IS FALSE")) ∧
    (∀ (cfg : ConvCfg) (fuel : Nat) (rhs : PTree),
      litIs (getLiteralToken rhs) isNullTokT = false →
      litIs (getLiteralToken rhs) isBoolTokT = false →
      visitF cfg (fuel + 1) (relT "relation_eq" (boolL "true") rhs) =
        mbind (visitChild cfg fuel rhs) (fun _ => wr " IS TRUE")) ∧
    convertParamTree postgresDialect [] false
      (relT "relation_eq" (identT "a") nullL) = Except.ok ("a IS NULL", []) ∧
    convertParamTree postgresDialect [] false
      (relT "relation_ne" (identT "b") (boolL "true")) =
        Except.ok ("b IS NOT TRUE", []) :=
  ⟨c3aux_null_rhs_eq, c3aux_null_rhs_ne, c3aux_null_lhs_eq, c3aux_bool_rhs_eq_t,
   c3aux_bool_rhs_ne_t, c3aux_bool_rhs_eq_f, c3aux_bool_lhs_eq_t,
   c3aux_param_null, c3aux_param_bool⟩

set_option maxHeartbeats 1000000

set_option maxHeartbeats 1000000

/-- C9 evidence: a string literal whose processed escapes contain a null
byte fails with the invalid-field-name kind and the state — buffer,
parameter list and all — is exactly the entry state, in every
configuration (parameterized or not). -/
theorem c9aux_nullbyte (cfg : ConvCfg) (fuel : Nat) (tx : String) (s : ConvState)
    (h1 : rawPrefixed tx = false)
    (h2 : containsNull (processEscapes (stripQuotes tx)) = true) :
    visitF cfg (fuel + 1) (.nd "literal" [.tk "STRING_LIT" tx]) s =
      (Except.error (mkErr .invalid_field_name
        "string literals cannot contain null bytes"
        "null byte found in string literals"), s) := by
  have hv : validate_no_null_bytes (processEscapes (stripQuotes tx)) =
      some (mkErr .invalid_field_name "string literals cannot contain null bytes"
        "null byte found in string literals") := by
    unfold validate_no_null_bytes
    rw [h2]
    rfl
  have e : visitF cfg (fuel + 1) (.nd "literal" [.tk "STRING_LIT" tx]) =
      mbind (liftO (validate_no_null_bytes
          (if ¬ rawPrefixed tx then processEscapes (stripQuotes tx)
           else stripQuotes tx)))
        (fun _ =>
          if cfg.parameterize then
            mbind (addParam (Value.vStr
                (if ¬ rawPrefixed tx then processEscapes (stripQuotes tx)
                 else stripQuotes tx)))
              (fun idx => wr (cfg.dialect.write_param_placeholder idx))
          else
            wr (cfg.dialect.write_string_literal
              (if ¬ rawPrefixed tx then processEscapes (stripQuotes tx)
               else stripQuotes tx))) := rfl
  rw [e, if_pos (by simp [h1]), hv]
  rfl

/-- C9 evidence: the concrete literal `"\u0000"` fails in plain mode. -/
theorem c9aux_concrete_plain :
    convertTree postgresDialect [] false
      (.nd "literal" [.tk "STRING_LIT" "\"\\u0000\""]) =
      Except.error (mkErr .invalid_field_name
        "string literals cannot contain null bytes"
        "null byte found in string literals") := by decide

/-- C9 evidence: the concrete literal `"\0"` fails in parameterized mode,
with no parameter list produced. -/
theorem c9aux_concrete_param :
    convertParamTree postgresDialect [] false
      (.nd "literal" [.tk "STRING_LIT" "\"\\0\""]) =
      Except.error (mkErr .invalid_field_name
        "string literals cannot contain null bytes"
        "null byte found in string literals") := by decide

/-- C9 (confirmed): a string literal whose processed escape sequences
contain a null byte is rejected with the invalid-field-name kind in every
configuration — parameterized or not — and the returned state is exactly
the entry state, so nothing was emitted inline and nothing was appended to
the parameter list; concretely both the `\u0000` and `\0` escapes fail
this way in both modes. -/
theorem null_byte_string_literal_rejected_before_emission :
    (∀ (cfg : ConvCfg) (fuel : Nat) (tx : String) (s : ConvState),
      rawPrefixed tx = false →
      containsNull (processEscapes (stripQuotes tx)) = true →
      visitF cfg (fuel + 1) (.nd "literal" [.tk "STRING_LIT" tx]) s =
        (Except.error (mkErr .invalid_field_name
          "string literals cannot contain null bytes"
          "null byte found in string literals"), s)) ∧
    convertTree postgresDialect [] false
      (.nd "literal" [.tk "STRING_LIT" "\"\\u0000\""]) =
      Except.error (mkErr .invalid_field_name
        "string literals cannot contain null bytes"
        "null byte found in string literals") ∧
    convertParamTree postgresDialect [] false
      (.nd "literal" [.tk "STRING_LIT" "\"\\0\""]) =
      Except.error (mkErr .invalid_field_name
        "string literals cannot contain null bytes"
        "null byte found in string literals") :=
  ⟨c9aux_nullbyte, c9aux_concrete_plain, c9aux_concrete_param⟩

set_option maxHeartbeats 1000000

/-- Key/value interleaving, for quantifying over `mapinits` child lists of
even length. -/
def interleave : List PTree → List PTree → List PTree
  | [], _ => []
  | _ :: _, [] => []
  | k :: ks, v :: vs => k :: v :: interleave ks vs

/-- Modelled from the spec: the values-only rendering of a map literal —
each value visited in source order, comma-separated. -/
def mapValuesOnlySpec (vc : PTree → M Unit) : Bool → List PTree → M Unit
  | _, [] => mpure ()
  | first, v :: rest =>
    mbind (if first then mpure () else wr ", ") (fun _ =>
      mbind (vc v) (fun _ => mapValuesOnlySpec vc false rest))

/-- C10 evidence: the stride-2 pair loop renders exactly the values, for
any keys whatsoever. -/
theorem mapPairs_values_only (vc : PTree → M Unit) :
    ∀ (ks vs : List PTree), ks.length = vs.length → ∀ (first : Bool),
      mapPairsH vc first (interleave ks vs) = mapValuesOnlySpec vc first vs := by
  intro ks
  induction ks with
  | nil =>
    intro vs h first
    cases vs with
    | nil => rfl
    | cons v vs' => simp at h
  | cons k ks' ih =>
    intro vs h first
    cases vs with
    | nil => simp at h
    | cons v vs' =>
      have h' : ks'.length = vs'.length := by
        simpa using h
      show mbind (if first then mpure () else wr ", ") (fun _ =>
          mbind (vc v) (fun _ => mapPairsH vc false (interleave ks' vs'))) =
        mbind (if first then mpure () else wr ", ") (fun _ =>
          mbind (vc v) (fun _ => mapValuesOnlySpec vc false vs'))
      rw [ih vs' h' false]

/-- C10 evidence: the `map_lit` handler is the struct constructor around
the values-only rendering, with the keys discarded. -/
theorem c10aux_maplit_eq (cfg : ConvCfg) (fuel : Nat) (ks vs : List PTree)
    (h : ks.length = vs.length) :
    visitF cfg (fuel + 1) (.nd "map_lit" [.nd "mapinits" (interleave ks vs)]) =
      mbind (wr cfg.dialect.write_struct_open) (fun _ =>
        mbind (mapValuesOnlySpec (visitChild cfg fuel) true vs) (fun _ =>
          wr cfg.dialect.write_struct_close)) := by
  have e : visitF cfg (fuel + 1) (.nd "map_lit" [.nd "mapinits" (interleave ks vs)]) =
      mbind (wr cfg.dialect.write_struct_open) (fun _ =>
        mbind (mapPairsH (visitChild cfg fuel) true (interleave ks vs)) (fun _ =>
          wr cfg.dialect.write_struct_close)) := rfl
  rw [e, mapPairs_values_only (visitChild cfg fuel) ks vs h true]

/-- C10 evidence: concretely, keys that are not valid identifiers (a
reserved keyword, a spaced name) are neither written nor validated. -/
theorem c10aux_concrete :
    convertTree postgresDialect [] false
      (.nd "map_lit" [.nd "mapinits"
        [strL "select", intL "1", identT "bad key", intL "2"]]) =
      Except.ok "ROW(1, 2)" ∧
    convertParamTree postgresDialect [] false
      (.nd "map_lit" [.nd "mapinits"
        [strL "select", intL "1", identT "bad key", intL "2"]]) =
      Except.ok ("ROW($1, $2)", [Value.vInt 1, Value.vInt 2]) := by
  refine ⟨by decide, by decide⟩

/-- C10 (confirmed): a map literal is lowered to the dialect's struct
constructor around the visits of the value expressions only, in source
order — the keys drop out entirely, whatever they are, so they are never
written and never validated — in both modes; concretely Postgres renders
`ROW(v1, v2)`, with keys that are a reserved keyword and a spaced
identifier accepted unexamined. -/
theorem map_literal_emits_values_only :
    (∀ (cfg : ConvCfg) (fuel : Nat) (ks vs : List PTree),
      ks.length = vs.length →
      visitF cfg (fuel + 1) (.nd "map_lit" [.nd "mapinits" (interleave ks vs)]) =
        mbind (wr cfg.dialect.write_struct_open) (fun _ =>
          mbind (mapValuesOnlySpec (visitChild cfg fuel) true vs) (fun _ =>
            wr cfg.dialect.write_struct_close))) ∧
    convertTree postgresDialect [] false
      (.nd "map_lit" [.nd "mapinits"
        [strL "select", intL "1", identT "bad key", intL "2"]]) =
      Except.ok "ROW(1, 2)" ∧
    convertParamTree postgresDialect [] false
      (.nd "map_lit" [.nd "mapinits"
        [strL "select", intL "1", identT "bad key", intL "2"]]) =
      Except.ok ("ROW($1, $2)", [Value.vInt 1, Value.vInt 2]) :=
  ⟨c10aux_maplit_eq, c10aux_concrete.1, c10aux_concrete.2⟩

set_option maxHeartbeats 1000000

/-- A schemas mapping with one repeated (array) column `tags` on `t`. -/
def tArrSchemas : Schemas := [("t", ⟨[{ name := "tags", repeated := true }]⟩)]

/-- C6 counterexample: the constructor check tests only that the schemas
mapping is empty, so `validate_schema=True` with a mapping containing one
EMPTY schema — no non-empty schema anywhere — is accepted and conversion
proceeds. -/
theorem empty_schema_mapping_entry_accepted_cx :
    convertTree postgresDialect [("t", ⟨[]⟩)] true
      (relT "relation_eq" (intL "1") (intL "1")) = Except.ok "1 = 1" := by decide

/-- C6 evidence: an empty schemas mapping with validation on fails at
construction with the invalid-schema kind. -/
theorem c6aux_empty_mapping (d : SqlDialect) :
    mkConverter { dialect := d, schemas := [], validateSchema := true } =
      Except.error (mkErr .invalid_schema errMsgSchemaValidationFailed
        "validate_schema=True requires at least one schema to be provided") := rfl

/-- C6 evidence: ANY non-empty mapping passes the constructor check,
regardless of what the schemas inside contain. -/
theorem c6aux_nonempty_mapping (d : SqlDialect) (schemas : Schemas)
    (h : schemas ≠ []) :
    mkConverter { dialect := d, schemas := schemas, validateSchema := true } =
      Except.ok { dialect := d, schemas := schemas, validateSchema := true } := by
  have hne : schemas.isEmpty = false := by
    cases schemas with
    | nil => exact absurd rfl h
    | cons a l => rfl
  unfold mkConverter
  simp [hne]

/-- C6 evidence: a rooted access whose table is absent fails naming the
table. -/
theorem c6aux_table_missing (cfg : ConvCfg) (tbl f : String)
    (h1 : cfg.validateSchema = true) (h2 : schemasGet cfg.schemas tbl = none) :
    validate_field_in_schema cfg tbl f =
      some (mkErr .invalid_schema errMsgSchemaValidationFailed
        ("table '" ++ tbl ++ "' not found in schemas")) := by
  unfold validate_field_in_schema
  rw [h2, if_neg (by simp [h1])]

/-- C6 evidence: a rooted access whose (first) field is absent from the
table's schema fails naming the field and the table. -/
theorem c6aux_field_missing (cfg : ConvCfg) (tbl f : String) (sch : Schema)
    (h1 : cfg.validateSchema = true) (h2 : schemasGet cfg.schemas tbl = some sch)
    (h3 : sch.find_field f = none) :
    validate_field_in_schema cfg tbl f =
      some (mkErr .invalid_schema errMsgSchemaValidationFailed
        ("field '" ++ f ++ "' not found in schema for '" ++ tbl ++ "'")) := by
  unfold validate_field_in_schema
  rw [h2, if_neg (by simp [h1])]
  show (match sch.find_field f with
        | none => some (mkErr .invalid_schema errMsgSchemaValidationFailed
            ("field '" ++ f ++ "' not found in schema for '" ++ tbl ++ "'"))
        | some _ => none) =
      some (mkErr .invalid_schema errMsgSchemaValidationFailed
        ("field '" ++ f ++ "' not found in schema for '" ++ tbl ++ "'"))
  rw [h3]

/-- C6 evidence: end-to-end, a missing table and a missing field both fail
with the schema kind and the internal message names the missing item. -/
theorem c6aux_concrete_missing :
    convertTree postgresDialect tJsonSchemas true (mdot (identT "missing") "f") =
      Except.error (mkErr .invalid_schema errMsgSchemaValidationFailed
        "table 'missing' not found in schemas") ∧
    convertTree postgresDialect tJsonSchemas true (mdot (identT "t") "nope") =
      Except.error (mkErr .invalid_schema errMsgSchemaValidationFailed
        "field 'nope' not found in schema for 't'") := by
  refine ⟨by decide, by decide⟩

/-- Validating Postgres configuration over the array schemas. -/
def pgCfgArrV : ConvCfg :=
  { dialect := postgresDialect, schemas := tArrSchemas, validateSchema := true }

/-- C6 evidence: a rooted access `x.name` under a state where `x` is a
bound comprehension variable is exempt from schema validation and
converts, while the identical access with `x` unbound fails the schema
check naming the table. -/
theorem c6aux_compvar_exempt :
    visitF pgCfgArrV 10 (mdot (identT "x") "name")
        { initState with compVars := ["x"] } =
      (Except.ok (), { initState with compVars := ["x"], buf := "x.name" }) ∧
    visitF pgCfgArrV 10 (mdot (identT "x") "name") initState =
      (Except.error (mkErr .invalid_schema errMsgSchemaValidationFailed
        "table 'x' not found in schemas"), initState) := by
  refine ⟨by decide, by decide⟩

/-- C6 evidence: a bare unrooted identifier is not schema-checked, and only
the first segment of a JSON path is checked. -/
theorem c6aux_bare_and_first_segment :
    convertTree postgresDialect tJsonSchemas true
      (relT "relation_gt" (identT "age") (intL "5")) = Except.ok "age > 5" ∧
    convertTree postgresDialect tJsonSchemas true tJsonStrCmp =
      Except.ok "t.data->>'role' = 'admin'" := by
  refine ⟨by decide, by decide⟩

/-- C6 (the init check is on the mapping, not the schemas in it):
`validate_schema=true` with an EMPTY schemas mapping fails at construction
with the invalid-schema kind, but any non-empty mapping is accepted even
when every schema in it is empty; with schemas supplied, a rooted access
is checked — a missing table or missing (first-segment) field fails with
the schema kind naming the missing item — while comprehension-bound
variables are exempt, bare unrooted identifiers are unchecked, and JSON
path segments past the first are unchecked. -/
theorem schema_validation_behavior :
    (∀ (d : SqlDialect),
      mkConverter { dialect := d, schemas := [], validateSchema := true } =
        Except.error (mkErr .invalid_schema errMsgSchemaValidationFailed
          "validate_schema=True requires at least one schema to be provided")) ∧
    (∀ (d : SqlDialect) (schemas : Schemas), schemas ≠ [] →
      mkConverter { dialect := d, schemas := schemas, validateSchema := true } =
        Except.ok { dialect := d, schemas := schemas, validateSchema := true }) ∧
    (∀ (cfg : ConvCfg) (tbl f : String),
      cfg.validateSchema = true → schemasGet cfg.schemas tbl = none →
      validate_field_in_schema cfg tbl f =
        some (mkErr .invalid_schema errMsgSchemaValidationFailed
          ("table '" ++ tbl ++ "' not found in schemas"))) ∧
    (∀ (cfg : ConvCfg) (tbl f : String) (sch : Schema),
      cfg.validateSchema = true → schemasGet cfg.schemas tbl = some sch →
      sch.find_field f = none →
      validate_field_in_schema cfg tbl f =
        some (mkErr .invalid_schema errMsgSchemaValidationFailed
          ("field '" ++ f ++ "' not found in schema for '" ++ tbl ++ "'"))) ∧
    (convertTree postgresDialect tJsonSchemas true (mdot (identT "missing") "f") =
        Except.error (mkErr .invalid_schema errMsgSchemaValidationFailed
          "table 'missing' not found in schemas") ∧
      convertTree postgresDialect tJsonSchemas true (mdot (identT "t") "nope") =
        Except.error (mkErr .invalid_schema errMsgSchemaValidationFailed
          "field 'nope' not found in schema for 't'")) ∧
    (visitF pgCfgArrV 10 (mdot (identT "x") "name")
        { initState with compVars := ["x"] } =
      (Except.ok (), { initState with compVars := ["x"], buf := "x.name" }) ∧
      visitF pgCfgArrV 10 (mdot (identT "x") "name") initState =
        (Except.error (mkErr .invalid_schema errMsgSchemaValidationFailed
          "table 'x' not found in schemas"), initState)) ∧
    (convertTree postgresDialect tJsonSchemas true
      (relT "relation_gt" (identT "age") (intL "5")) = Except.ok "age > 5" ∧
      convertTree postgresDialect tJsonSchemas true tJsonStrCmp =
        Except.ok "t.data->>'role' = 'admin'") :=
  ⟨c6aux_empty_mapping, c6aux_nonempty_mapping, c6aux_table_missing,
   c6aux_field_missing, c6aux_concrete_missing, c6aux_compvar_exempt,
   c6aux_bare_and_first_segment⟩

set_option maxHeartbeats 1000000

/-! ## Comprehension-variable footprint (claim C5)

`PresVars m` says running `m` from any state leaves the bound
loop-variable set a sublist of the entry set: names may be consumed (a
reused name is discarded by the inner macro's `finally`) but never
invented or left behind. -/

/-- Exit `compVars` is a sublist of entry `compVars`, from every state. -/
def PresVars {α : Type} (m : M α) : Prop :=
  ∀ s : ConvState, (((m s).2).compVars).Sublist s.compVars

theorem presVars_mpure {α : Type} (a : α) : PresVars (mpure a) :=
  fun _ => List.Sublist.refl _

theorem presVars_raise {α : Type} (e : Err) : PresVars (raise e : M α) :=
  fun _ => List.Sublist.refl _

theorem presVars_wr (t : String) : PresVars (wr t) :=
  fun _ => List.Sublist.refl _

theorem presVars_getS : PresVars getS :=
  fun _ => List.Sublist.refl _

theorem presVars_addParam (v : Value) : PresVars (addParam v) :=
  fun _ => List.Sublist.refl _

theorem presVars_modifyS (f : ConvState → ConvState)
    (h : ∀ s, (f s).compVars = s.compVars) : PresVars (modifyS f) := by
  intro s
  show ((f s).compVars).Sublist s.compVars
  rw [h s]

theorem presVars_liftE {α : Type} (e : Except Err α) : PresVars (liftE e) := by
  cases e with
  | ok a => exact presVars_mpure a
  | error err => exact presVars_raise err

theorem presVars_liftO (o : Option Err) : PresVars (liftO o) := by
  cases o with
  | some e => exact presVars_raise e
  | none => exact presVars_mpure ()

theorem presVars_mbind {α β : Type} {m : M α} {k : α → M β}
    (hm : PresVars m) (hk : ∀ a, PresVars (k a)) : PresVars (mbind m k) := by
  intro s
  have hs := hm s
  unfold mbind
  rcases hh : m s with ⟨r, s1⟩
  rw [hh] at hs
  cases r with
  | ok a => exact (hk a s1).trans hs
  | error e => exact hs

theorem presVars_tryFin {α : Type} {body : M α} {fin : ConvState → ConvState}
    (hb : PresVars body) (hf : ∀ s, (fin s).compVars = s.compVars) :
    PresVars (tryFin body fin) := by
  intro s
  have hs := hb s
  unfold tryFin
  rcases hh : body s with ⟨r, s1⟩
  rw [hh] at hs
  show ((fin s1).compVars).Sublist s.compVars
  rw [hf s1]
  exact hs

theorem presVars_ite {α : Type} (c : Prop) [Decidable c] {m1 m2 : M α}
    (h1 : PresVars m1) (h2 : PresVars m2) : PresVars (if c then m1 else m2) := by
  split
  · exact h1
  · exact h2

theorem presVars_mseq (l : List (M Unit)) (h : ∀ m ∈ l, PresVars m) :
    PresVars (mseq l) := by
  induction l with
  | nil => exact presVars_mpure ()
  | cons m rest ih =>
    exact presVars_mbind (h m (List.mem_cons_self m rest))
      (fun _ => ih (fun x hx => h x (List.mem_cons_of_mem m hx)))

theorem presVars_msepSeq (l : List (M Unit)) (h : ∀ m ∈ l, PresVars m) :
    PresVars (msepSeq l) := by
  cases l with
  | nil => exact presVars_mpure ()
  | cons m rest =>
    refine presVars_mbind (h m (List.mem_cons_self m rest)) (fun _ => ?_)
    refine presVars_mseq _ (fun x hx => ?_)
    rcases List.mem_map.mp hx with ⟨a, ha, rfl⟩
    exact presVars_mbind (presVars_wr ", ")
      (fun _ => h a (List.mem_cons_of_mem m ha))

theorem presVars_cb1 {a : M Unit} (ha : PresVars a) : ∀ k, PresVars (cb1 a k)
  | 0 => ha
  | _ + 1 => presVars_mpure ()

theorem presVars_cb2 {a b : M Unit} (ha : PresVars a) (hb : PresVars b) :
    ∀ k, PresVars (cb2 a b k)
  | 0 => ha
  | 1 => hb
  | _ + 2 => presVars_mpure ()

theorem presVars_runTpl {cb : Nat → M Unit} (hcb : ∀ k, PresVars (cb k)) :
    ∀ tpl : Tpl, PresVars (runTpl cb tpl)
  | [] => presVars_mpure ()
  | TItem.txt t :: rest =>
    presVars_mbind (presVars_wr t) (fun _ => presVars_runTpl hcb rest)
  | TItem.hole k :: rest =>
    presVars_mbind (hcb k) (fun _ => presVars_runTpl hcb rest)

theorem presVars_checkLimits (cfg : ConvCfg) : PresVars (checkLimits cfg) :=
  presVars_mbind presVars_getS (fun _ =>
    presVars_ite _ (presVars_raise _)
      (presVars_ite _ (presVars_raise _) (presVars_mpure ())))

theorem presVars_visitChildAux (cfg : ConvCfg) (v : PTree → M Unit)
    (hv : ∀ t, PresVars (v t)) : ∀ t, PresVars (visitChildAux cfg v t) :=
  fun t => presVars_mbind (presVars_modifyS _ (fun _ => rfl)) (fun _ =>
    presVars_tryFin
      (presVars_mbind (presVars_checkLimits cfg) (fun _ => hv t))
      (fun _ => rfl))

/-- The comprehension scope pattern — bind, run the body, discard in a
`finally` — never leaks a name: whatever the body did, the exit set is a
sublist of the entry set. -/
theorem presVars_comp_scope (v : String) (body : M Unit) (hb : PresVars body) :
    PresVars (mbind (addCompVar v) (fun _ => tryFin body (discardCompVar v))) := by
  intro s
  show (((tryFin body (discardCompVar v))
      (if v ∈ s.compVars then s else { s with compVars := v :: s.compVars })).2.compVars).Sublist
    s.compVars
  rw [tryFin_run]
  show ((((body (if v ∈ s.compVars then s
      else { s with compVars := v :: s.compVars })).2).compVars.erase v)).Sublist s.compVars
  by_cases hmem : v ∈ s.compVars
  · rw [if_pos hmem]
    exact (List.erase_sublist v _).trans (hb s)
  · rw [if_neg hmem]
    have hs := hb { s with compVars := v :: s.compVars }
    have := hs.erase v
    rw [List.erase_cons_head v s.compVars] at this
    exact this

/-- Running the scope pattern from a state where the name is already
bound (and the bound set has no duplicates) removes the name. -/
theorem compVars_scope_unbind (v : String) (body : M Unit) (hb : PresVars body)
    (s : ConvState) (hmem : v ∈ s.compVars) (hnd : s.compVars.Nodup) :
    v ∉ (((mbind (addCompVar v) (fun _ => tryFin body (discardCompVar v))) s).2).compVars := by
  have e : (((mbind (addCompVar v) (fun _ => tryFin body (discardCompVar v))) s).2).compVars =
      ((body (if v ∈ s.compVars then s
        else { s with compVars := v :: s.compVars })).2).compVars.erase v := by
    show (((tryFin body (discardCompVar v))
        (if v ∈ s.compVars then s else { s with compVars := v :: s.compVars })).2).compVars = _
    rw [tryFin_run]
    rfl
  rw [e, if_pos hmem]
  have hsub := hb s
  have hnd2 : (((body s).2).compVars).Nodup := hnd.sublist hsub
  exact hnd2.not_mem_erase

end Pycel

namespace Pycel

/-! Per-handler footprint lemmas: each converter handler preserves the
`PresVars` invariant when every child visit does. -/

theorem presVars_exprH (vc : PTree → M Unit) (hvc : ∀ t, PresVars (vc t))
    (cs : List PTree) : PresVars (exprH vc cs) := by
  unfold exprH
  split
  · exact presVars_mbind (presVars_wr _) (fun _ => presVars_mbind (hvc _) (fun _ =>
      presVars_mbind (presVars_wr _) (fun _ => presVars_mbind (hvc _) (fun _ =>
        presVars_mbind (presVars_wr _) (fun _ => presVars_mbind (hvc _) (fun _ =>
          presVars_wr _))))))
  · exact hvc _
  · exact presVars_raise _

theorem presVars_condorH (vc : PTree → M Unit) (hvc : ∀ t, PresVars (vc t))
    (cs : List PTree) : PresVars (conditionalorH vc cs) := by
  unfold conditionalorH
  split
  · exact presVars_mbind (hvc _) (fun _ => presVars_mbind (presVars_wr _) (fun _ => hvc _))
  · exact hvc _
  · exact presVars_raise _

theorem presVars_condandH (vc : PTree → M Unit) (hvc : ∀ t, PresVars (vc t))
    (cs : List PTree) : PresVars (conditionalandH vc cs) := by
  unfold conditionalandH
  split
  · exact presVars_mbind (hvc _) (fun _ => presVars_mbind (presVars_wr _) (fun _ => hvc _))
  · exact hvc _
  · exact presVars_raise _

theorem presVars_visitInH (cfg : ConvCfg) (vc : PTree → M Unit)
    (hvc : ∀ t, PresVars (vc t)) (lhs rhs : PTree) :
    PresVars (visitInH cfg vc lhs rhs) :=
  presVars_runTpl (presVars_cb2 (hvc lhs) (hvc rhs)) _

theorem presVars_castNumericCall (cfg : ConvCfg) (vc : PTree → M Unit)
    (hvc : ∀ t, PresVars (vc t)) (t : PTree) :
    PresVars (castNumericCall cfg vc t) := by
  unfold castNumericCall
  split
  · exact presVars_raise _
  · exact presVars_runTpl (presVars_cb1 (presVars_mbind (presVars_wr _) (fun _ =>
      presVars_mbind (hvc t) (fun _ => presVars_wr _)))) _

theorem presVars_relationGenericH (cfg : ConvCfg) (vc : PTree → M Unit)
    (hvc : ∀ t, PresVars (vc t)) (opName : String) (lhs rhs : PTree) :
    PresVars (relationGenericH cfg vc opName lhs rhs) := by
  unfold relationGenericH
  split
  · exact presVars_raise _
  · refine presVars_ite _ ?_ ?_
    · refine presVars_ite _ ?_ (presVars_ite _ ?_ ?_)
      · exact presVars_mbind (presVars_castNumericCall cfg vc hvc lhs) (fun _ =>
          presVars_mbind (presVars_wr _) (fun _ => hvc rhs))
      · exact presVars_mbind (hvc lhs) (fun _ => presVars_mbind (presVars_wr _)
          (fun _ => presVars_castNumericCall cfg vc hvc rhs))
      · exact presVars_mbind (hvc lhs) (fun _ => presVars_mbind (presVars_wr _)
          (fun _ => hvc rhs))
    · exact presVars_mbind (hvc lhs) (fun _ => presVars_mbind (presVars_wr _)
        (fun _ => hvc rhs))

theorem presVars_relationH (cfg : ConvCfg) (vc : PTree → M Unit)
    (hvc : ∀ t, PresVars (vc t)) (cs : List PTree) :
    PresVars (relationH cfg vc cs) := by
  unfold relationH
  split
  · exact hvc _
  · split
    · exact presVars_raise _
    · split
      · exact presVars_raise _
      · refine presVars_ite _ (presVars_visitInH cfg vc hvc _ _) ?_
        refine presVars_ite _ ?_ (presVars_relationGenericH cfg vc hvc _ _ _)
        refine presVars_ite _ ?_ (presVars_ite _ ?_ (presVars_ite _ ?_
          (presVars_ite _ ?_ (presVars_relationGenericH cfg vc hvc _ _ _))))
        · exact presVars_mbind (hvc _) (fun _ => presVars_wr _)
        · exact presVars_mbind (hvc _) (fun _ => presVars_wr _)
        · exact presVars_mbind (hvc _) (fun _ => presVars_wr _)
        · exact presVars_mbind (hvc _) (fun _ => presVars_wr _)
  · exact presVars_raise _

theorem presVars_prefixPassH (vc : PTree → M Unit) (hvc : ∀ t, PresVars (vc t))
    (cs : List PTree) : PresVars (prefixPassH vc cs) := by
  unfold prefixPassH
  split
  · exact hvc _
  · exact presVars_raise _

theorem presVars_additionH (cfg : ConvCfg) (vc : PTree → M Unit)
    (hvc : ∀ t, PresVars (vc t)) (cs : List PTree) :
    PresVars (additionH cfg vc cs) := by
  unfold additionH
  split
  · exact hvc _
  · split
    · exact presVars_raise _
    · split
      · exact presVars_raise _
      · refine presVars_ite _ ?_ (presVars_ite _ ?_ (presVars_raise _))
        · refine presVars_ite _ (presVars_ite _ ?_ ?_) (presVars_ite _ ?_
            (presVars_ite _ ?_ ?_))
          · exact presVars_runTpl (presVars_cb2 (hvc _) (hvc _)) _
          · exact presVars_runTpl (presVars_cb2 (hvc _) (hvc _)) _
          · exact presVars_runTpl (presVars_cb2 (hvc _) (hvc _)) _
          · exact presVars_runTpl (presVars_cb2 (hvc _) (hvc _)) _
          · exact presVars_mbind (hvc _) (fun _ => presVars_mbind (presVars_wr _)
              (fun _ => hvc _))
        · refine presVars_ite _ ?_ ?_
          · exact presVars_runTpl (presVars_cb2 (hvc _) (hvc _)) _
          · exact presVars_mbind (hvc _) (fun _ => presVars_mbind (presVars_wr _)
              (fun _ => hvc _))
  · exact presVars_raise _

theorem presVars_multiplicationH (vc : PTree → M Unit) (hvc : ∀ t, PresVars (vc t))
    (cs : List PTree) : PresVars (multiplicationH vc cs) := by
  unfold multiplicationH
  split
  · exact hvc _
  · split
    · exact presVars_raise _
    · split
      · exact presVars_raise _
      · refine presVars_ite _ ?_ (presVars_ite _ ?_ (presVars_ite _ ?_
          (presVars_raise _)))
        · exact presVars_mbind (hvc _) (fun _ => presVars_mbind (presVars_wr _)
            (fun _ => hvc _))
        · exact presVars_mbind (hvc _) (fun _ => presVars_mbind (presVars_wr _)
            (fun _ => hvc _))
        · exact presVars_mbind (presVars_wr _) (fun _ => presVars_mbind (hvc _)
            (fun _ => presVars_mbind (presVars_wr _) (fun _ =>
              presVars_mbind (hvc _) (fun _ => presVars_wr _))))
  · exact presVars_raise _

theorem presVars_unaryH (vc : PTree → M Unit) (hvc : ∀ t, PresVars (vc t))
    (cs : List PTree) : PresVars (unaryH vc cs) := by
  unfold unaryH
  split
  · exact hvc _
  · split
    · exact presVars_mbind (presVars_wr _) (fun _ => hvc _)
    · exact presVars_mbind (presVars_wr _) (fun _ => hvc _)
    · exact presVars_raise _
  · exact presVars_raise _

theorem presVars_memberH (vc : PTree → M Unit) (hvc : ∀ t, PresVars (vc t))
    (cs : List PTree) : PresVars (memberH vc cs) := by
  unfold memberH
  split
  · exact hvc _
  · exact presVars_raise _

theorem presVars_jsonChain (d : SqlDialect) :
    ∀ (ps : List String) (base : M Unit), PresVars base →
      PresVars (jsonChain d base ps)
  | [], _, _ => presVars_mpure ()
  | [_], _, hb => presVars_runTpl (presVars_cb1 hb) _
  | _ :: q :: rest, _, hb =>
    presVars_jsonChain d (q :: rest) _ (presVars_runTpl (presVars_cb1 hb) _)

theorem presVars_buildJsonPath (cfg : ConvCfg) (vc : PTree → M Unit)
    (hvc : ∀ t, PresVars (vc t)) (t : PTree) :
    PresVars (buildJsonPath cfg vc t) := by
  show PresVars (match (collectJson t).1 with
    | [] => raise pyIndexErr
    | [p0] => mbind (vc (collectJson t).2) (fun _ => wr ("." ++ p0))
    | p0 :: p1 :: prest =>
      jsonChain cfg.dialect
        (mbind (vc (collectJson t).2) (fun _ => wr ("." ++ p0))) (p1 :: prest))
  split
  · exact presVars_raise _
  · exact presVars_mbind (hvc _) (fun _ => presVars_wr _)
  · exact presVars_jsonChain cfg.dialect _ _
      (presVars_mbind (hvc _) (fun _ => presVars_wr _))

theorem presVars_memberDotH (cfg : ConvCfg) (vc : PTree → M Unit)
    (hvc : ∀ t, PresVars (vc t)) (cs : List PTree) :
    PresVars (memberDotH cfg vc cs) := by
  unfold memberDotH
  split
  · refine presVars_mbind presVars_getS (fun s => presVars_mbind ?_ (fun _ => ?_))
    · split
      · exact presVars_ite _ (presVars_mpure ()) (presVars_liftO _)
      · exact presVars_mpure ()
    · refine presVars_ite _ (presVars_buildJsonPath cfg vc hvc _) ?_
      exact presVars_mbind (hvc _) (fun _ => presVars_mbind (presVars_wr _) (fun _ =>
        presVars_mbind (presVars_liftO _) (fun _ => presVars_wr _)))
  · exact presVars_raise _

theorem presVars_visitContainsH (cfg : ConvCfg) (vc : PTree → M Unit)
    (hvc : ∀ t, PresVars (vc t)) (obj : PTree) (args : List PTree) :
    PresVars (visitContainsH cfg vc obj args) := by
  unfold visitContainsH
  split
  · refine presVars_mbind ?_ (fun _ =>
      presVars_runTpl (presVars_cb2 (hvc obj) (hvc _)) _)
    split
    · exact presVars_ite _ (presVars_liftO _) (presVars_mpure ())
    · exact presVars_mpure ()
  · exact presVars_raise _

theorem presVars_visitStartsWithH (cfg : ConvCfg) (vc : PTree → M Unit)
    (hvc : ∀ t, PresVars (vc t)) (obj : PTree) (args : List PTree) :
    PresVars (visitStartsWithH cfg vc obj args) := by
  unfold visitStartsWithH
  split
  · split
    · refine presVars_ite _ ?_ (presVars_raise _)
      exact presVars_mbind (presVars_liftO _) (fun _ => presVars_mbind (hvc obj)
        (fun _ => presVars_mbind (presVars_wr _) (fun _ => presVars_wr _)))
    · exact presVars_raise _
  · exact presVars_raise _

theorem presVars_visitEndsWithH (cfg : ConvCfg) (vc : PTree → M Unit)
    (hvc : ∀ t, PresVars (vc t)) (obj : PTree) (args : List PTree) :
    PresVars (visitEndsWithH cfg vc obj args) := by
  unfold visitEndsWithH
  split
  · split
    · refine presVars_ite _ ?_ (presVars_raise _)
      exact presVars_mbind (presVars_liftO _) (fun _ => presVars_mbind (hvc obj)
        (fun _ => presVars_mbind (presVars_wr _) (fun _ => presVars_wr _)))
    · exact presVars_raise _
  · exact presVars_raise _

theorem presVars_visitMatchesMethodH (cfg : ConvCfg) (vc : PTree → M Unit)
    (hvc : ∀ t, PresVars (vc t)) (obj : PTree) (args : List PTree) :
    PresVars (visitMatchesMethodH cfg vc obj args) := by
  unfold visitMatchesMethodH
  split
  · split
    · refine presVars_ite _ ?_ (presVars_raise _)
      exact presVars_mbind (presVars_liftE _) (fun _ => presVars_mbind
        (presVars_liftE _) (fun _ => presVars_runTpl (presVars_cb1 (hvc obj)) _))
    · exact presVars_raise _
  · exact presVars_raise _

theorem presVars_visitMatchesFuncH (cfg : ConvCfg) (vc : PTree → M Unit)
    (hvc : ∀ t, PresVars (vc t)) (target patternExpr : PTree) :
    PresVars (visitMatchesFuncH cfg vc target patternExpr) := by
  unfold visitMatchesFuncH
  split
  · refine presVars_ite _ ?_ (presVars_raise _)
    exact presVars_mbind (presVars_liftE _) (fun _ => presVars_mbind
      (presVars_liftE _) (fun _ => presVars_runTpl (presVars_cb1 (hvc target)) _))
  · exact presVars_raise _

theorem presVars_visitSizeH (cfg : ConvCfg) (vc : PTree → M Unit)
    (hvc : ∀ t, PresVars (vc t)) (obj : PTree) :
    PresVars (visitSizeH cfg vc obj) := by
  unfold visitSizeH
  refine presVars_ite _ ?_ ?_
  · exact presVars_runTpl (presVars_cb1 (hvc obj)) _
  · exact presVars_mbind (presVars_wr _) (fun _ => presVars_mbind (hvc obj)
      (fun _ => presVars_wr _))

theorem presVars_visitCharAtH (vc : PTree → M Unit) (hvc : ∀ t, PresVars (vc t))
    (obj : PTree) (args : List PTree) : PresVars (visitCharAtH vc obj args) := by
  unfold visitCharAtH
  split
  · refine presVars_mbind (presVars_wr _) (fun _ => presVars_mbind (hvc obj)
      (fun _ => presVars_mbind (presVars_wr _) (fun _ =>
        presVars_mbind ?_ (fun _ => presVars_wr _))))
    split
    · refine presVars_ite _ (presVars_wr _) ?_
      exact presVars_mbind (hvc _) (fun _ => presVars_wr _)
    · exact presVars_mbind (hvc _) (fun _ => presVars_wr _)
  · exact presVars_raise _

theorem presVars_unnestSourceH (cfg : ConvCfg) (vc : PTree → M Unit)
    (hvc : ∀ t, PresVars (vc t)) (source : PTree) (iterVar : String) :
    PresVars (unnestSourceH cfg vc source iterVar) :=
  presVars_mbind (presVars_runTpl (presVars_cb1 (hvc source)) _)
    (fun _ => presVars_wr _)

theorem presVars_exprCloseH (cfg : ConvCfg) : PresVars (exprCloseH cfg) := by
  unfold exprCloseH
  split
  · exact presVars_raise _
  · exact presVars_wr _

theorem presVars_compAllH (cfg : ConvCfg) (vc : PTree → M Unit)
    (hvc : ∀ t, PresVars (vc t)) (source : PTree) (args : List PTree) :
    PresVars (compAllH cfg vc source args) := by
  unfold compAllH
  split
  · refine presVars_mbind (presVars_liftE _) (fun iv => presVars_comp_scope iv _ ?_)
    exact presVars_mbind (presVars_wr _) (fun _ => presVars_mbind
      (presVars_unnestSourceH cfg vc hvc source iv) (fun _ => presVars_mbind
        (presVars_wr _) (fun _ => presVars_mbind (hvc _) (fun _ => presVars_wr _))))
  · exact presVars_raise _

theorem presVars_compExistsH (cfg : ConvCfg) (vc : PTree → M Unit)
    (hvc : ∀ t, PresVars (vc t)) (source : PTree) (args : List PTree) :
    PresVars (compExistsH cfg vc source args) := by
  unfold compExistsH
  split
  · refine presVars_mbind (presVars_liftE _) (fun iv => presVars_comp_scope iv _ ?_)
    exact presVars_mbind (presVars_wr _) (fun _ => presVars_mbind
      (presVars_unnestSourceH cfg vc hvc source iv) (fun _ => presVars_mbind
        (presVars_wr _) (fun _ => presVars_mbind (hvc _) (fun _ => presVars_wr _))))
  · exact presVars_raise _

theorem presVars_compExistsOneH (cfg : ConvCfg) (vc : PTree → M Unit)
    (hvc : ∀ t, PresVars (vc t)) (source : PTree) (args : List PTree) :
    PresVars (compExistsOneH cfg vc source args) := by
  unfold compExistsOneH
  split
  · refine presVars_mbind (presVars_liftE _) (fun iv => presVars_comp_scope iv _ ?_)
    exact presVars_mbind (presVars_wr _) (fun _ => presVars_mbind
      (presVars_unnestSourceH cfg vc hvc source iv) (fun _ => presVars_mbind
        (presVars_wr _) (fun _ => presVars_mbind (hvc _) (fun _ => presVars_wr _))))
  · exact presVars_raise _

theorem presVars_compMapH (cfg : ConvCfg) (vc : PTree → M Unit)
    (hvc : ∀ t, PresVars (vc t)) (source : PTree) (args : List PTree) :
    PresVars (compMapH cfg vc source args) := by
  unfold compMapH
  split
  · refine presVars_mbind (presVars_liftE _) (fun iv => presVars_comp_scope iv _ ?_)
    exact presVars_mbind (presVars_wr _) (fun _ => presVars_mbind (hvc _) (fun _ =>
      presVars_mbind (presVars_exprCloseH cfg) (fun _ => presVars_mbind
        (presVars_wr _) (fun _ => presVars_mbind
          (presVars_unnestSourceH cfg vc hvc source iv) (fun _ => presVars_wr _)))))
  · exact presVars_raise _

theorem presVars_compMapFilterH (cfg : ConvCfg) (vc : PTree → M Unit)
    (hvc : ∀ t, PresVars (vc t)) (source : PTree) (args : List PTree) :
    PresVars (compMapFilterH cfg vc source args) := by
  unfold compMapFilterH
  split
  · refine presVars_mbind (presVars_liftE _) (fun iv => presVars_comp_scope iv _ ?_)
    refine presVars_mbind (presVars_wr _) (fun _ => ?_)
    refine presVars_mbind (hvc _) (fun _ => ?_)
    refine presVars_mbind (presVars_exprCloseH cfg) (fun _ => ?_)
    refine presVars_mbind (presVars_wr _) (fun _ => ?_)
    refine presVars_mbind (presVars_unnestSourceH cfg vc hvc source iv) (fun _ => ?_)
    refine presVars_mbind (presVars_wr _) (fun _ => ?_)
    exact presVars_mbind (hvc _) (fun _ => presVars_wr _)
  · exact presVars_raise _

theorem presVars_compFilterH (cfg : ConvCfg) (vc : PTree → M Unit)
    (hvc : ∀ t, PresVars (vc t)) (source : PTree) (args : List PTree) :
    PresVars (compFilterH cfg vc source args) := by
  unfold compFilterH
  split
  · refine presVars_mbind (presVars_liftE _) (fun iv => presVars_comp_scope iv _ ?_)
    refine presVars_mbind (presVars_wr _) (fun _ => ?_)
    refine presVars_mbind (presVars_wr _) (fun _ => ?_)
    refine presVars_mbind (presVars_exprCloseH cfg) (fun _ => ?_)
    refine presVars_mbind (presVars_wr _) (fun _ => ?_)
    refine presVars_mbind (presVars_unnestSourceH cfg vc hvc source iv) (fun _ => ?_)
    refine presVars_mbind (presVars_wr _) (fun _ => ?_)
    exact presVars_mbind (hvc _) (fun _ => presVars_wr _)
  · exact presVars_raise _

theorem presVars_visitComprehensionH (cfg : ConvCfg) (vc : PTree → M Unit)
    (hvc : ∀ t, PresVars (vc t)) (source : PTree) (macroName : String)
    (args : List PTree) : PresVars (visitComprehensionH cfg vc source macroName args) := by
  unfold visitComprehensionH
  refine presVars_mbind presVars_getS (fun s => ?_)
  refine presVars_ite _ (presVars_raise _) ?_
  refine presVars_mbind (presVars_modifyS _ (fun _ => rfl)) (fun _ => ?_)
  refine presVars_tryFin ?_ (fun _ => rfl)
  refine presVars_ite _ (presVars_compAllH cfg vc hvc source args) ?_
  refine presVars_ite _ (presVars_compExistsH cfg vc hvc source args) ?_
  refine presVars_ite _ (presVars_compExistsOneH cfg vc hvc source args) ?_
  refine presVars_ite _ ?_ ?_
  · exact presVars_ite _ (presVars_compMapFilterH cfg vc hvc source args)
      (presVars_compMapH cfg vc hvc source args)
  · exact presVars_ite _ (presVars_compFilterH cfg vc hvc source args)
      (presVars_raise _)

theorem presVars_memberDotArgH (cfg : ConvCfg) (vc : PTree → M Unit)
    (hvc : ∀ t, PresVars (vc t)) (cs : List PTree) :
    PresVars (memberDotArgH cfg vc cs) := by
  unfold memberDotArgH
  split
  · refine presVars_ite _ (presVars_visitComprehensionH cfg vc hvc _ _ _) ?_
    refine presVars_ite _ (presVars_visitContainsH cfg vc hvc _ _) ?_
    refine presVars_ite _ (presVars_visitStartsWithH cfg vc hvc _ _) ?_
    refine presVars_ite _ (presVars_visitEndsWithH cfg vc hvc _ _) ?_
    refine presVars_ite _ (presVars_visitMatchesMethodH cfg vc hvc _ _) ?_
    refine presVars_ite _ (presVars_visitSizeH cfg vc hvc _) ?_
    refine presVars_ite _ (presVars_mbind (presVars_wr _) (fun _ =>
      presVars_mbind (hvc _) (fun _ => presVars_wr _))) ?_
    refine presVars_ite _ (presVars_mbind (presVars_wr _) (fun _ =>
      presVars_mbind (hvc _) (fun _ => presVars_wr _))) ?_
    refine presVars_ite _ (presVars_mbind (presVars_wr _) (fun _ =>
      presVars_mbind (hvc _) (fun _ => presVars_wr _))) ?_
    refine presVars_ite _ (presVars_visitCharAtH vc hvc _ _) ?_
    refine presVars_ite _ (presVars_raise _) ?_
    refine presVars_ite _ (presVars_mbind (presVars_wr _) (fun _ =>
      presVars_mbind (hvc _) (fun _ => presVars_wr _))) ?_
    refine presVars_ite _ (presVars_raise _) ?_
    exact presVars_ite _ (presVars_raise _) (presVars_raise _)
  · exact presVars_raise _

theorem presVars_memberIndexH (cfg : ConvCfg) (vc : PTree → M Unit)
    (hvc : ∀ t, PresVars (vc t)) (cs : List PTree) :
    PresVars (memberIndexH cfg vc cs) := by
  unfold memberIndexH
  split
  · split
    · refine presVars_ite _ ?_ ?_
      · exact presVars_mbind (presVars_liftO _) (fun _ =>
          presVars_mbind (hvc _) (fun _ => presVars_wr _))
      · refine presVars_ite _ ?_ ?_
        · refine presVars_ite _ (presVars_raise _) (presVars_ite _ (presVars_raise _) ?_)
          exact presVars_runTpl (presVars_cb1 (hvc _)) _
        · exact presVars_runTpl (presVars_cb2 (hvc _) (hvc _)) _
    · exact presVars_runTpl (presVars_cb2 (hvc _) (hvc _)) _
  · exact presVars_raise _

theorem presVars_memberObjectH : PresVars memberObjectH :=
  presVars_raise _

theorem presVars_primaryH (vc : PTree → M Unit) (hvc : ∀ t, PresVars (vc t))
    (cs : List PTree) : PresVars (primaryH vc cs) := by
  unfold primaryH
  split
  · exact hvc _
  · exact presVars_raise _

theorem presVars_identH (cs : List PTree) : PresVars (identH cs) := by
  unfold identH
  split
  · exact presVars_mbind presVars_getS (fun s => presVars_mbind
      (presVars_ite _ (presVars_mpure ()) (presVars_liftO _))
      (fun _ => presVars_wr _))
  · exact presVars_raise _

theorem presVars_identArgH (cfg : ConvCfg) (vc : PTree → M Unit)
    (hvc : ∀ t, PresVars (vc t)) (cs : List PTree) :
    PresVars (identArgH cfg vc cs) := by
  unfold identArgH
  split
  · refine presVars_ite _ (presVars_raise _) ?_
    refine presVars_ite _ ?_ ?_
    · split
      · exact presVars_visitSizeH cfg vc hvc _
      · exact presVars_mpure ()
    · refine presVars_ite _ ?_ ?_
      · split
        · exact presVars_visitMatchesFuncH cfg vc hvc _ _
        · exact presVars_mpure ()
      · refine presVars_ite _ (presVars_raise _) ?_
        refine presVars_ite _ (presVars_raise _) ?_
        refine presVars_ite _ (presVars_raise _) ?_
        refine presVars_ite _ (presVars_raise _) ?_
        refine presVars_ite _ (presVars_raise _) ?_
        refine presVars_ite _ (presVars_raise _) ?_
        exact presVars_mbind (presVars_wr _) (fun _ => presVars_mbind
          (presVars_msepSeq _ (fun m hm => by
            rcases List.mem_map.mp hm with ⟨a, _, rfl⟩
            exact hvc a)) (fun _ => presVars_wr _))
  · exact presVars_raise _

theorem presVars_dotIdentArgH (vc : PTree → M Unit) (hvc : ∀ t, PresVars (vc t))
    (cs : List PTree) : PresVars (dotIdentArgH vc cs) := by
  unfold dotIdentArgH
  split
  · refine presVars_mbind (presVars_wr _) (fun _ => presVars_mbind ?_
      (fun _ => presVars_wr _))
    split
    · refine presVars_msepSeq _ (fun m hm => ?_)
      rcases List.mem_map.mp hm with ⟨a, _, rfl⟩
      exact hvc a
    · exact presVars_mpure ()
  · exact presVars_raise _

theorem presVars_dotIdentH (cs : List PTree) : PresVars (dotIdentH cs) := by
  unfold dotIdentH
  split
  · exact presVars_wr _
  · exact presVars_raise _

theorem presVars_parenExprH (vc : PTree → M Unit) (hvc : ∀ t, PresVars (vc t))
    (cs : List PTree) : PresVars (parenExprH vc cs) := by
  unfold parenExprH
  split
  · exact presVars_mbind (presVars_wr _) (fun _ => presVars_mbind (hvc _)
      (fun _ => presVars_wr _))
  · exact presVars_raise _

theorem presVars_literalH (cfg : ConvCfg) (cs : List PTree) :
    PresVars (literalH cfg cs) := by
  unfold literalH
  split
  · exact presVars_raise _
  · split
    · exact presVars_raise _
    · refine presVars_ite _ (presVars_wr _) ?_
      refine presVars_ite _ (presVars_wr _) ?_
      refine presVars_ite _ ?_ ?_
      · exact presVars_ite _ (presVars_mbind (presVars_addParam _)
          (fun _ => presVars_wr _)) (presVars_wr _)
      · refine presVars_ite _ ?_ ?_
        · exact presVars_ite _ (presVars_mbind (presVars_addParam _)
            (fun _ => presVars_wr _)) (presVars_wr _)
        · refine presVars_ite _ ?_ ?_
          · exact presVars_ite _ (presVars_mbind (presVars_addParam _)
              (fun _ => presVars_wr _)) (presVars_wr _)
          · refine presVars_ite _ ?_ ?_
            · exact presVars_mbind (presVars_liftO _) (fun _ =>
                presVars_ite _ (presVars_mbind (presVars_addParam _)
                  (fun _ => presVars_wr _)) (presVars_wr _))
            · exact presVars_ite _ (presVars_raise _) (presVars_raise _)

theorem presVars_listLitH (cfg : ConvCfg) (vc : PTree → M Unit)
    (hvc : ∀ t, PresVars (vc t)) (cs : List PTree) :
    PresVars (listLitH cfg vc cs) := by
  unfold listLitH
  refine presVars_mbind (presVars_wr _) (fun _ => presVars_mbind ?_
    (fun _ => presVars_wr _))
  split
  · refine presVars_msepSeq _ (fun m hm => ?_)
    rcases List.mem_map.mp hm with ⟨a, _, rfl⟩
    exact hvc a
  · exact presVars_mpure ()

theorem presVars_mapPairsH (vc : PTree → M Unit) (hvc : ∀ t, PresVars (vc t)) :
    ∀ (l : List PTree) (first : Bool), PresVars (mapPairsH vc first l)
  | [], _ => presVars_mpure ()
  | [_], _ => presVars_raise _
  | _ :: v :: rest, _ =>
    presVars_mbind (presVars_ite _ (presVars_mpure ()) (presVars_wr _)) (fun _ =>
      presVars_mbind (hvc v) (fun _ => presVars_mapPairsH vc hvc rest false))

theorem presVars_mapLitH (cfg : ConvCfg) (vc : PTree → M Unit)
    (hvc : ∀ t, PresVars (vc t)) (cs : List PTree) :
    PresVars (mapLitH cfg vc cs) := by
  unfold mapLitH
  refine presVars_mbind (presVars_wr _) (fun _ => presVars_mbind ?_
    (fun _ => presVars_wr _))
  split
  · exact presVars_mapPairsH vc hvc _ _
  · exact presVars_mpure ()

theorem presVars_exprlistH (vc : PTree → M Unit) (hvc : ∀ t, PresVars (vc t))
    (cs : List PTree) : PresVars (exprlistH vc cs) := by
  unfold exprlistH
  refine presVars_msepSeq _ (fun m hm => ?_)
  rcases List.mem_map.mp hm with ⟨a, _, rfl⟩
  exact hvc a

/-- The whole visitor preserves the invariant: conversion can only shrink
the bound comprehension-variable set. -/
theorem presVars_visitF (cfg : ConvCfg) :
    ∀ (fuel : Nat) (t : PTree), PresVars (visitF cfg fuel t) := by
  intro fuel
  induction fuel with
  | zero => intro t; exact presVars_raise _
  | succ n ih =>
    intro t
    have hvc : ∀ t', PresVars (visitChildAux cfg (visitF cfg n) t') :=
      presVars_visitChildAux cfg _ ih
    cases t with
    | tk ty tx => exact presVars_wr _
    | nd data cs =>
      show PresVars (visitF cfg (n + 1) (.nd data cs))
      unfold visitF
      refine presVars_ite _ (presVars_exprH _ hvc cs) ?_
      refine presVars_ite _ (presVars_condorH _ hvc cs) ?_
      refine presVars_ite _ (presVars_condandH _ hvc cs) ?_
      refine presVars_ite _ (presVars_relationH cfg _ hvc cs) ?_
      refine presVars_ite _ (presVars_prefixPassH _ hvc cs) ?_
      refine presVars_ite _ (presVars_additionH cfg _ hvc cs) ?_
      refine presVars_ite _ (presVars_prefixPassH _ hvc cs) ?_
      refine presVars_ite _ (presVars_multiplicationH _ hvc cs) ?_
      refine presVars_ite _ (presVars_prefixPassH _ hvc cs) ?_
      refine presVars_ite _ (presVars_unaryH _ hvc cs) ?_
      refine presVars_ite _ (presVars_mpure ()) ?_
      refine presVars_ite _ (presVars_memberH _ hvc cs) ?_
      refine presVars_ite _ (presVars_memberDotH cfg _ hvc cs) ?_
      refine presVars_ite _ (presVars_memberDotArgH cfg _ hvc cs) ?_
      refine presVars_ite _ (presVars_memberIndexH cfg _ hvc cs) ?_
      refine presVars_ite _ presVars_memberObjectH ?_
      refine presVars_ite _ (presVars_primaryH _ hvc cs) ?_
      refine presVars_ite _ (presVars_identH cs) ?_
      refine presVars_ite _ (presVars_identArgH cfg _ hvc cs) ?_
      refine presVars_ite _ (presVars_dotIdentArgH _ hvc cs) ?_
      refine presVars_ite _ (presVars_dotIdentH cs) ?_
      refine presVars_ite _ (presVars_parenExprH _ hvc cs) ?_
      refine presVars_ite _ (presVars_literalH cfg cs) ?_
      refine presVars_ite _ (presVars_listLitH cfg _ hvc cs) ?_
      refine presVars_ite _ (presVars_mapLitH cfg _ hvc cs) ?_
      refine presVars_ite _ (presVars_exprlistH _ hvc cs) ?_
      refine presVars_ite _ (presVars_mapPairsH _ hvc cs true) ?_
      exact presVars_raise _

/-- Run equation for a state update followed by a continuation. -/
theorem mbind_modifyS_run {β : Type} (g : ConvState → ConvState)
    (k : Unit → M β) (s : ConvState) :
    (mbind (modifyS g) k) s = k () (g s) := rfl

/-- `compVars` is untouched by the comprehension-depth decrement. -/
theorem compVars_dec (s : ConvState) :
    ({ s with compDepth := s.compDepth - 1 }).compVars = s.compVars := rfl

/-- The common macro-handler shape — extract the variable name, bind it,
run the body, discard in a `finally` — unbinds a reused name. -/
theorem comp_handler_unbind (v : String) (body : String → M Unit)
    (hb : PresVars (body v)) (a0 : PTree) (hid : getIdentName a0 = Except.ok v)
    (s : ConvState) (hmem : v ∈ s.compVars) (hnd : s.compVars.Nodup) :
    v ∉ (((mbind (liftE (getIdentName a0)) (fun iv =>
        mbind (addCompVar iv) (fun _ => tryFin (body iv) (discardCompVar iv)))) s).2).compVars := by
  rw [hid]
  exact compVars_scope_unbind v (body v) hb s hmem hnd

/-- C5 evidence: every comprehension macro whose loop-variable name is
already bound at entry (with a duplicate-free bound set and comprehension
depth below the limit) leaves that name UNBOUND on exit — the
unconditional `set.discard` in the `finally` removes it even though this
macro did not add it. -/
theorem comp_reuse_unbinds (cfg : ConvCfg) (vc : PTree → M Unit)
    (src a0 a1 : PTree) (m v : String) (s : ConvState)
    (hvc : ∀ t, PresVars (vc t))
    (hm : m ∈ (["all", "exists", "exists_one", "map", "filter"] : List String))
    (hid : getIdentName a0 = Except.ok v)
    (hd : s.compDepth < maxComprehensionDepth)
    (hmem : v ∈ s.compVars) (hnd : s.compVars.Nodup) :
    v ∉ (((visitComprehensionH cfg vc src m [a0, a1]) s).2).compVars := by
  have e1 : (visitComprehensionH cfg vc src m [a0, a1]) s =
      (if s.compDepth ≥ maxComprehensionDepth then
        (raise (mkErr .max_comprehension_depth_exceeded
          "comprehension nesting depth exceeded"
          ("depth " ++ toString s.compDepth ++ " exceeds limit " ++
            toString maxComprehensionDepth)) : M Unit)
      else
        mbind (modifyS (fun s2 => { s2 with compDepth := s2.compDepth + 1 }))
          (fun _ => tryFin
            (if m = "all" then compAllH cfg vc src [a0, a1]
             else if m = "exists" then compExistsH cfg vc src [a0, a1]
             else if m = "exists_one" then compExistsOneH cfg vc src [a0, a1]
             else if m = "map" then
               (if ([a0, a1] : List PTree).length = 3 then
                  compMapFilterH cfg vc src [a0, a1]
                else compMapH cfg vc src [a0, a1])
             else if m = "filter" then compFilterH cfg vc src [a0, a1]
             else raise (mkErr .unsupported_expression
               ("unsupported comprehension: " ++ m)))
            (fun s2 => { s2 with compDepth := s2.compDepth - 1 }))) s := rfl
  rw [e1, if_neg (Nat.not_le.mpr hd), mbind_modifyS_run, tryFin_run]
  simp only [compVars_dec]
  simp only [List.mem_cons, List.mem_singleton, List.not_mem_nil, or_false] at hm
  rcases hm with rfl | rfl | rfl | rfl | rfl
  · exact comp_handler_unbind v
      (fun iv => mbind (wr "NOT EXISTS (SELECT 1 FROM ") (fun _ =>
        mbind (unnestSourceH cfg vc src iv) (fun _ =>
          mbind (wr " WHERE NOT (") (fun _ =>
            mbind (vc a1) (fun _ => wr "))")))))
      (presVars_mbind (presVars_wr _) (fun _ =>
        presVars_mbind (presVars_unnestSourceH cfg vc hvc src v) (fun _ =>
          presVars_mbind (presVars_wr _) (fun _ =>
            presVars_mbind (hvc a1) (fun _ => presVars_wr _)))))
      a0 hid _ hmem hnd
  · exact comp_handler_unbind v
      (fun iv => mbind (wr "EXISTS (SELECT 1 FROM ") (fun _ =>
        mbind (unnestSourceH cfg vc src iv) (fun _ =>
          mbind (wr " WHERE ") (fun _ =>
            mbind (vc a1) (fun _ => wr ")")))))
      (presVars_mbind (presVars_wr _) (fun _ =>
        presVars_mbind (presVars_unnestSourceH cfg vc hvc src v) (fun _ =>
          presVars_mbind (presVars_wr _) (fun _ =>
            presVars_mbind (hvc a1) (fun _ => presVars_wr _)))))
      a0 hid _ hmem hnd
  · exact comp_handler_unbind v
      (fun iv => mbind (wr "(SELECT COUNT(*) FROM ") (fun _ =>
        mbind (unnestSourceH cfg vc src iv) (fun _ =>
          mbind (wr " WHERE ") (fun _ =>
            mbind (vc a1) (fun _ => wr ") = 1")))))
      (presVars_mbind (presVars_wr _) (fun _ =>
        presVars_mbind (presVars_unnestSourceH cfg vc hvc src v) (fun _ =>
          presVars_mbind (presVars_wr _) (fun _ =>
            presVars_mbind (hvc a1) (fun _ => presVars_wr _)))))
      a0 hid _ hmem hnd
  · exact comp_handler_unbind v
      (fun iv => mbind (wr cfg.dialect.write_array_subquery_open) (fun _ =>
        mbind (vc a1) (fun _ =>
          mbind (exprCloseH cfg) (fun _ =>
            mbind (wr " FROM ") (fun _ =>
              mbind (unnestSourceH cfg vc src iv) (fun _ => wr ")"))))))
      (presVars_mbind (presVars_wr _) (fun _ =>
        presVars_mbind (hvc a1) (fun _ =>
          presVars_mbind (presVars_exprCloseH cfg) (fun _ =>
            presVars_mbind (presVars_wr _) (fun _ =>
              presVars_mbind (presVars_unnestSourceH cfg vc hvc src v)
                (fun _ => presVars_wr _))))))
      a0 hid _ hmem hnd
  · exact comp_handler_unbind v
      (fun iv => mbind (wr cfg.dialect.write_array_subquery_open) (fun _ =>
        mbind (wr iv) (fun _ =>
          mbind (exprCloseH cfg) (fun _ =>
            mbind (wr " FROM ") (fun _ =>
              mbind (unnestSourceH cfg vc src iv) (fun _ =>
                mbind (wr " WHERE ") (fun _ =>
                  mbind (vc a1) (fun _ => wr ")"))))))))
      (presVars_mbind (presVars_wr _) (fun _ =>
        presVars_mbind (presVars_wr _) (fun _ =>
          presVars_mbind (presVars_exprCloseH cfg) (fun _ =>
            presVars_mbind (presVars_wr _) (fun _ =>
              presVars_mbind (presVars_unnestSourceH cfg vc hvc src v) (fun _ =>
                presVars_mbind (presVars_wr _) (fun _ =>
                  presVars_mbind (hvc a1) (fun _ => presVars_wr _))))))))
      a0 hid _ hmem hnd

/-- The inner comprehension `tags.exists(x, x > 0)`. -/
def innerExistsT : PTree :=
  mcall (identT "tags") "exists" [identT "x", relT "relation_gt" (identT "x") (intL "0")]

/-- C5 counterexample: visiting `tags.exists(x, x > 0)` from a state where
`x` is already bound (as inside an enclosing comprehension over `x`)
leaves `x` UNBOUND — the bound-variable set after the macro is `[]`, not
the entry set `["x"]`. -/
theorem comp_reuse_unbinds_cx :
    ((visitF pgCfgD 20 innerExistsT { initState with compVars := ["x"] }).2).compVars = [] := by
  have e : visitF pgCfgD 20 innerExistsT =
      visitComprehensionH pgCfgD (visitChildAux pgCfgD (visitF pgCfgD 19))
        (identT "tags") "exists"
        [identT "x", relT "relation_gt" (identT "x") (intL "0")] := rfl
  have hsub : (((visitF pgCfgD 20 innerExistsT
      { initState with compVars := ["x"] }).2).compVars).Sublist ["x"] :=
    presVars_visitF pgCfgD 20 innerExistsT { initState with compVars := ["x"] }
  have hnot : "x" ∉ ((visitF pgCfgD 20 innerExistsT
      { initState with compVars := ["x"] }).2).compVars := by
    rw [e]
    exact comp_reuse_unbinds pgCfgD _ (identT "tags") (identT "x")
      (relT "relation_gt" (identT "x") (intL "0")) "exists" "x" _
      (presVars_visitChildAux pgCfgD _ (presVars_visitF pgCfgD 19))
      (by simp) rfl (by decide) (by simp) (by simp)
  rcases List.sublist_singleton.mp hsub with h0 | h1
  · exact h0
  · rw [h1] at hnot
    exact absurd (List.mem_singleton.mpr rfl) hnot

/-- C5 (the set is not restored on reuse): conversion can only shrink the
bound comprehension-variable set (exit is always a sublist of entry), and
a macro whose loop-variable name was already bound at entry removes it —
the name does not survive for the remainder of the enclosing body. -/
theorem comprehension_variable_scoping :
    (∀ (cfg : ConvCfg) (fuel : Nat) (t : PTree) (s : ConvState),
      ((((visitF cfg fuel t) s).2).compVars).Sublist s.compVars) ∧
    (∀ (cfg : ConvCfg) (vc : PTree → M Unit) (src a0 a1 : PTree) (m v : String)
        (s : ConvState),
      (∀ t, PresVars (vc t)) →
      m ∈ (["all", "exists", "exists_one", "map", "filter"] : List String) →
      getIdentName a0 = Except.ok v →
      s.compDepth < maxComprehensionDepth →
      v ∈ s.compVars → s.compVars.Nodup →
      v ∉ (((visitComprehensionH cfg vc src m [a0, a1]) s).2).compVars) :=
  ⟨fun cfg fuel t => presVars_visitF cfg fuel t, comp_reuse_unbinds⟩

end Pycel

set_option maxHeartbeats 1000000

namespace Pycel

/-! ## Inline/parameterized correspondence (claim C8)

Spec-side rendering model: a restricted expression fragment (`Frag`)
decomposes into `pieces` — literal SQL text interleaved with
parameterizable literal leaves — from which both the inline SQL and the
placeholder SQL with its parameter list are rendered. -/

end Pycel

namespace Pycel

end Pycel

namespace Pycel

end Pycel

namespace Pycel

end Pycel

namespace Pycel

end Pycel
